import Mathlib

/-!
# Verification of the MCUboot shared-data TLV writer

Shallow embedding of `boot/zephyr/shared_data.c`: the append-only TLV record
store (`boot_add_data_to_shared_area`) and the record writer
(`boot_save_shared_data`).

Machine integers are modelled as `Nat` with explicit `% 2^16` where the C
code uses `uint16_t` arithmetic.  The backing store (Zephyr retention
device) and the TLV structure layout come from headers that are not part of
the source tree; those definitions are modelled from the specification and
marked as such.
-/

/-! ## Constants modelled from the spec

The TLV structure sizes and magic come from `bootutil/boot_status.h`,
which is not part of the given sources.  The spec fixes: an area header
`{ magic : u32, total_length : u16 }` (6 bytes), an entry header
`{ type : u16, length : u16 }` (4 bytes), `type` packing `major` in the
high byte and `minor` in the low byte. -/

/-- Modelled from the spec: size of `struct shared_data_tlv_header`
(`magic : u32` followed by `total_length : u16`), from `boot_status.h`
which is missing from the sources. -/
def SHARED_DATA_HEADER_SIZE : Nat := 6

/-- Modelled from the spec: size of `struct shared_data_tlv_entry`
(`type : u16` followed by `length : u16`), from `boot_status.h`. -/
def SHARED_DATA_ENTRY_HEADER_SIZE : Nat := 4

/-- `SHARED_DATA_ENTRY_SIZE(len)`: entry header plus payload length. -/
def SHARED_DATA_ENTRY_SIZE (len : Nat) : Nat :=
  SHARED_DATA_ENTRY_HEADER_SIZE + len

/-- Modelled from the spec: the fixed magic sentinel identifying a valid
area (`boot_status.h`); its concrete value is immaterial to the claims. -/
def SHARED_DATA_TLV_INFO_MAGIC : Nat := 0x2016

/-- Modelled from the spec: pack `major` in the high byte and `minor` in
the low byte of the 16-bit `type` field (`boot_status.h`). -/
def SET_TLV_TYPE (major minor : Nat) : Nat :=
  (major % 256) * 256 + (minor % 256)

/-- Modelled from the spec: high byte of a 16-bit `type` value. -/
def GET_MAJOR (ty : Nat) : Nat := ty / 256

/-- Modelled from the spec: low byte of a 16-bit `type` value. -/
def GET_MINOR (ty : Nat) : Nat := ty % 256

/-- `SHARED_MEMORY_MIN_SIZE` from `shared_data.c`; the `BUILD_ASSERT`
demands the retention region be strictly larger than this. -/
def SHARED_MEMORY_MIN_SIZE : Nat := 8

/-- Return codes of `boot_add_data_to_shared_area`.  The code uses the
distinct symbolic constants `SHARED_MEMORY_{OK,GEN_ERROR,OVERWRITE,
OVERFLOW,READ_ERROR,WRITE_ERROR}` from `boot_record.h`; one constructor
per symbol. -/
inductive SharedRc where
  | ok
  | gen_error
  | overwrite
  | overflow
  | read_error
  | write_error
deriving DecidableEq, Repr

/-- Observable side effects on the backing store that the temporal claims
talk about: the one-time `retention_clear`, the one-time
`retention_size` query, and each `retention_write` invocation
(offset and length). -/
inductive Ev where
  | clear
  | size_query
  | write (offset len : Nat)
deriving DecidableEq, Repr

/-! ## Byte-level encoding (little endian, packed, no padding) -/

/-- Little-endian bytes of a 16-bit value. -/
def encodeU16 (v : Nat) : List Nat := [v % 256, v / 256 % 256]

/-- Little-endian bytes of a 32-bit value. -/
def encodeU32 (v : Nat) : List Nat :=
  [v % 256, v / 256 % 256, v / 65536 % 256, v / 16777216 % 256]

/-- Reinterpret two bytes at `off` as a 16-bit value (bytes are taken
mod 256, as the store holds `uint8_t`). -/
def decodeU16 (b : List Nat) (off : Nat) : Nat :=
  b.getD off 0 % 256 + (b.getD (off + 1) 0 % 256) * 256

/-- Reinterpret four bytes at `off` as a 32-bit value. -/
def decodeU32 (b : List Nat) (off : Nat) : Nat :=
  b.getD off 0 % 256 + (b.getD (off + 1) 0 % 256) * 256 +
    (b.getD (off + 2) 0 % 256) * 65536 + (b.getD (off + 3) 0 % 256) * 16777216

/-- Serialized `struct shared_data_tlv_entry`. -/
def encode_entry_header (ty len : Nat) : List Nat :=
  encodeU16 ty ++ encodeU16 len

/-- Serialized `struct shared_data_tlv_header` with the magic sentinel. -/
def encode_area_header (totLen : Nat) : List Nat :=
  encodeU32 SHARED_DATA_TLV_INFO_MAGIC ++ encodeU16 totLen

/-! ## Backing store (modelled from the spec, §6 Backing Store Adapter)

The Zephyr retention driver is an external collaborator; the spec gives it
as `clear() / capacity() / read(offset,len) / write(offset,bytes)` over a
fixed-size region, where read and write can fail.  Failure behaviour is
modelled by two result-code functions of the offset and length. -/

/-- Modelled from the spec: a fixed-size byte region with fallible read
and write (`rc ≠ 0` means failure, as in the Zephyr retention API). -/
structure Retention where
  size : Nat
  bytes : List Nat
  readRc : Nat → Nat → Int
  writeRc : Nat → Nat → Int

/-- Overwrite `src.length` bytes of `bytes` starting at `offset`. -/
def writeBytes (bytes : List Nat) (offset : Nat) (src : List Nat) : List Nat :=
  bytes.take offset ++ src ++ bytes.drop (offset + src.length)

/-- Modelled from the spec: wipe the region to a known-empty state. -/
def retention_clear (dev : Retention) : Retention :=
  { dev with bytes := List.replicate dev.size 0 }

/-- Modelled from the spec: the fixed byte size of the region. -/
def retention_size (dev : Retention) : Nat := dev.size

/-- Modelled from the spec: read `len` bytes at `offset`; fails for an
out-of-range access or when the device reports an error. -/
def retention_read (dev : Retention) (offset len : Nat) : Except Int (List Nat) :=
  if dev.size < offset + len then Except.error (-22)
  else if dev.readRc offset len ≠ 0 then Except.error (dev.readRc offset len)
  else Except.ok ((dev.bytes.drop offset).take len)

/-- Modelled from the spec: write `src` at `offset`; fails for an
out-of-range access or when the device reports an error. -/
def retention_write (dev : Retention) (offset : Nat) (src : List Nat) :
    Except Int Retention :=
  if dev.size < offset + src.length then Except.error (-22)
  else if dev.writeRc offset src.length ≠ 0 then Except.error (dev.writeRc offset src.length)
  else Except.ok { dev with bytes := writeBytes dev.bytes offset src }

/-! ## The duplicate scan (`while` loop at shared_data.c:67-82)

The loop reads an entry header at `offset`, fails on a read error,
stops when the `(major, minor)` pair matches, and otherwise advances by
`SHARED_DATA_ENTRY_SIZE(tlv_len)`.  It is written with explicit fuel;
`find_existing_entry` runs it with fuel `tlv_end - offset`, which is
proved sufficient (claim C9). -/

inductive ScanOutcome where
  | foundDup
  | readErr
  | clean
deriving DecidableEq, Repr

/-- One fuel-indexed unfolding of the duplicate-scan loop.  `none` means
the fuel ran out before the loop finished. -/
def scan_loop (dev : Retention) (major_type minor_type : Nat) :
    Nat → Nat → Nat → Option ScanOutcome
  | 0, offset, tlv_end =>
      if offset < tlv_end then none else some ScanOutcome.clean
  | Nat.succ fuel, offset, tlv_end =>
      if offset < tlv_end then
        match retention_read dev offset SHARED_DATA_ENTRY_HEADER_SIZE with
        | Except.error _ => some ScanOutcome.readErr
        | Except.ok hb =>
            let ty := decodeU16 hb 0
            if GET_MAJOR ty = major_type ∧ GET_MINOR ty = minor_type then
              some ScanOutcome.foundDup
            else
              scan_loop dev major_type minor_type fuel
                (offset + SHARED_DATA_ENTRY_SIZE (decodeU16 hb 2)) tlv_end
      else some ScanOutcome.clean

/-- The duplicate scan of `boot_add_data_to_shared_area`, run with fuel
`tlv_end - offset` (sufficient: each iteration advances the offset by at
least `SHARED_DATA_ENTRY_HEADER_SIZE`, see the C9 theorem). -/
def find_existing_entry (dev : Retention) (major_type minor_type offset tlv_end : Nat) :
    ScanOutcome :=
  (scan_loop dev major_type minor_type (tlv_end - offset) offset tlv_end).getD
    ScanOutcome.clean

/-! ## Process-wide state and the append operation -/

/-- The three `static` variables of `shared_data.c` together with the
backing store. -/
structure BootState where
  shared_memory_init_done : Bool
  shared_data_size : Nat
  shared_data_max_size : Nat
  dev : Retention

/-- State at the start of a boot cycle: the C static initializers
(`init_done = false`, `shared_data_size = SHARED_DATA_HEADER_SIZE`,
`shared_data_max_size = 0`) over a device `dev`. -/
def initialState (dev : Retention) : BootState :=
  { shared_memory_init_done := false
    shared_data_size := SHARED_DATA_HEADER_SIZE
    shared_data_max_size := 0
    dev := dev }

/-- Modelled from the spec: `boot_u16_safe_add` from `bootutil_priv.h`
(missing from the sources): overflow-checked addition over the 16-bit
domain, failing when the sum leaves the `uint16_t` range. -/
def boot_u16_safe_add (a b : Nat) : Option Nat :=
  if a + b ≤ 65535 then some (a + b) else none

/-- The part of `boot_add_data_to_shared_area` after the null check and
lazy initialization (shared_data.c:58-124): duplicate scan, size check,
entry write, payload write, commit of the area header.  Returned events
record the `retention_write` invocations. -/
def add_data_inited (st : BootState) (major_type minor_type sz : Nat) (d : List Nat) :
    SharedRc × BootState × List Ev :=
  match find_existing_entry st.dev major_type minor_type SHARED_DATA_HEADER_SIZE
      st.shared_data_size with
  | ScanOutcome.readErr => (SharedRc.read_error, st, [])
  | ScanOutcome.foundDup => (SharedRc.overwrite, st, [])
  | ScanOutcome.clean =>
    match boot_u16_safe_add st.shared_data_size (SHARED_DATA_ENTRY_SIZE sz) with
    | none => (SharedRc.gen_error, st, [])
    | some boot_data_size =>
      if st.shared_data_max_size < boot_data_size then (SharedRc.overflow, st, [])
      else
        let tlv_entry := encode_entry_header (SET_TLV_TYPE major_type minor_type) (sz % 65536)
        let offset := st.shared_data_size
        match retention_write st.dev offset tlv_entry with
        | Except.error _ =>
            (SharedRc.write_error, st, [Ev.write offset tlv_entry.length])
        | Except.ok dev1 =>
          let pbytes := d.take sz
          match retention_write dev1 (offset + SHARED_DATA_ENTRY_HEADER_SIZE) pbytes with
          | Except.error _ =>
              (SharedRc.write_error, { st with dev := dev1 },
                [Ev.write offset tlv_entry.length,
                 Ev.write (offset + SHARED_DATA_ENTRY_HEADER_SIZE) pbytes.length])
          | Except.ok dev2 =>
            let new_size := (st.shared_data_size + SHARED_DATA_ENTRY_SIZE sz) % 65536
            let hdr := encode_area_header new_size
            match retention_write dev2 0 hdr with
            | Except.error _ =>
                (SharedRc.write_error,
                  { st with dev := dev2, shared_data_size := new_size },
                  [Ev.write offset tlv_entry.length,
                   Ev.write (offset + SHARED_DATA_ENTRY_HEADER_SIZE) pbytes.length,
                   Ev.write 0 hdr.length])
            | Except.ok dev3 =>
                (SharedRc.ok,
                  { st with dev := dev3, shared_data_size := new_size },
                  [Ev.write offset tlv_entry.length,
                   Ev.write (offset + SHARED_DATA_ENTRY_HEADER_SIZE) pbytes.length,
                   Ev.write 0 hdr.length])

/-- `boot_add_data_to_shared_area` (shared_data.c:31-125).  The payload
pointer is `Option (List Nat)` with `none` for `NULL`; `sz` is the
caller-supplied `size_t` length.  `major_type`/`minor_type` are truncated
to their C parameter widths (`uint8_t`/`uint16_t`).  The null check
precedes the guarded lazy initialization, which performs the one-time
`retention_clear` and `retention_size` query. -/
def boot_add_data_to_shared_area (st : BootState) (major_type minor_type sz : Nat)
    (data : Option (List Nat)) : SharedRc × BootState × List Ev :=
  let major := major_type % 256
  let minor := minor_type % 65536
  match data with
  | none => (SharedRc.gen_error, st, [])
  | some d =>
    if st.shared_memory_init_done then add_data_inited st major minor sz d
    else
      let dev := retention_clear st.dev
      let st1 : BootState :=
        { st with dev := dev
                  shared_data_max_size := retention_size dev
                  shared_memory_init_done := true }
      let out := add_data_inited st1 major minor sz d
      (out.1, out.2.1, [Ev.clear, Ev.size_query] ++ out.2.2)

/-! ## Sequences of append calls within one boot cycle -/

/-- One append request of a boot cycle. -/
structure Req where
  major : Nat
  minor : Nat
  size : Nat
  data : Option (List Nat)
deriving DecidableEq

/-- Run a sequence of append calls, collecting each call's return code
and emitted events. -/
def run_appends (st : BootState) : List Req → BootState × List (SharedRc × List Ev)
  | [] => (st, [])
  | r :: rs =>
    let out := boot_add_data_to_shared_area st r.major r.minor r.size r.data
    let rest := run_appends out.2.1 rs
    (rest.1, (out.1, out.2.2) :: rest.2)

/-- The requests of a run that succeeded, in order. -/
def ok_reqs (reqs : List Req) (outs : List (SharedRc × List Ev)) : List Req :=
  ((reqs.zip outs).filter (fun p => p.2.1 == SharedRc.ok)).map Prod.fst

/-- Fail-fast sequencing following the spec's Record Writer contract
(§4.2): call `append` once per fact in order and stop at the first
failure, propagating its error. -/
def run_until_error (st : BootState) : List Req → SharedRc × BootState
  | [] => (SharedRc.ok, st)
  | r :: rs =>
    let out := boot_add_data_to_shared_area st r.major r.minor r.size r.data
    if out.1 = SharedRc.ok then run_until_error out.2.1 rs else (out.1, out.2.1)

/-! ## The record writer (`boot_save_shared_data`, shared_data.c:128-226)

The BLINFO minor codes come from `boot_status.h` (missing from the
sources); modelled from the spec as distinct stable constants. -/

/-- Modelled from the spec: the "boot link info" major domain. -/
def TLV_MAJOR_BLINFO : Nat := 1

/-- Modelled from the spec: minor code of the operating-mode fact. -/
def BLINFO_MODE : Nat := 1

/-- Modelled from the spec: minor code of the signature-type fact. -/
def BLINFO_SIGNATURE_TYPE : Nat := 2

/-- Modelled from the spec: minor code of the recovery-mode fact. -/
def BLINFO_RECOVERY : Nat := 3

/-- Modelled from the spec: minor code of the active-slot fact. -/
def BLINFO_RUNNING_SLOT : Nat := 4

/-- Modelled from the spec: minor code of the bootloader-version fact. -/
def BLINFO_BOOTLOADER_VERSION : Nat := 5

/-- Modelled from the spec: minor code of the maximum-application-size
fact. -/
def BLINFO_MAX_APPLICATION_SIZE : Nat := 6

/-- Serialized `struct image_version` (u8 major, u8 minor, u16 revision,
u32 build), 8 bytes. -/
def encode_image_version (iv_major iv_minor iv_revision iv_build : Nat) : List Nat :=
  [iv_major % 256, iv_minor % 256] ++ encodeU16 iv_revision ++ encodeU32 iv_build

/-- The six facts of `boot_save_shared_data` in source order, with the
sizes the C passes (`sizeof` of each value).  `lolz` is the result of
`swap_size2()`, an opaque external collaborator per the spec. -/
def save_reqs (mode signature_type recovery slot iv_major iv_minor iv_revision
    iv_build lolz : Nat) : List Req :=
  [ { major := TLV_MAJOR_BLINFO, minor := BLINFO_MODE, size := 1,
      data := some [mode % 256] },
    { major := TLV_MAJOR_BLINFO, minor := BLINFO_SIGNATURE_TYPE, size := 1,
      data := some [signature_type % 256] },
    { major := TLV_MAJOR_BLINFO, minor := BLINFO_RECOVERY, size := 1,
      data := some [recovery % 256] },
    { major := TLV_MAJOR_BLINFO, minor := BLINFO_RUNNING_SLOT, size := 4,
      data := some (encodeU32 slot) },
    { major := TLV_MAJOR_BLINFO, minor := BLINFO_BOOTLOADER_VERSION, size := 8,
      data := some (encode_image_version iv_major iv_minor iv_revision iv_build) },
    { major := TLV_MAJOR_BLINFO, minor := BLINFO_MAX_APPLICATION_SIZE, size := 4,
      data := some (encodeU32 lolz) } ]

/-- `boot_save_shared_data`: writes the six facts with the C's flat
`rc = ...; if (!rc) { rc = ... } ...` chain and returns the last computed
`rc`. -/
def boot_save_shared_data (st : BootState) (mode signature_type recovery slot
    iv_major iv_minor iv_revision iv_build lolz : Nat) : SharedRc × BootState :=
  let o1 := boot_add_data_to_shared_area st TLV_MAJOR_BLINFO BLINFO_MODE 1
      (some [mode % 256])
  let o2 := if o1.1 = SharedRc.ok then
      boot_add_data_to_shared_area o1.2.1 TLV_MAJOR_BLINFO BLINFO_SIGNATURE_TYPE 1
        (some [signature_type % 256])
    else (o1.1, o1.2.1, [])
  let o3 := if o2.1 = SharedRc.ok then
      boot_add_data_to_shared_area o2.2.1 TLV_MAJOR_BLINFO BLINFO_RECOVERY 1
        (some [recovery % 256])
    else (o2.1, o2.2.1, [])
  let o4 := if o3.1 = SharedRc.ok then
      boot_add_data_to_shared_area o3.2.1 TLV_MAJOR_BLINFO BLINFO_RUNNING_SLOT 4
        (some (encodeU32 slot))
    else (o3.1, o3.2.1, [])
  let o5 := if o4.1 = SharedRc.ok then
      boot_add_data_to_shared_area o4.2.1 TLV_MAJOR_BLINFO BLINFO_BOOTLOADER_VERSION 8
        (some (encode_image_version iv_major iv_minor iv_revision iv_build))
    else (o4.1, o4.2.1, [])
  let o6 := if o5.1 = SharedRc.ok then
      boot_add_data_to_shared_area o5.2.1 TLV_MAJOR_BLINFO BLINFO_MAX_APPLICATION_SIZE 4
        (some (encodeU32 lolz))
    else (o5.1, o5.2.1, [])
  (o6.1, o6.2.1)

/-! ## The stored-entry layout produced by successful appends -/

/-- The payload bytes an append with request `r` leaves in the region:
the first `r.size` bytes of the buffer, and (the cleared store's) zeros
where the C would read past a too-short buffer. -/
def req_payload (r : Req) : List Nat :=
  (r.data.getD []).take r.size ++ List.replicate (r.size - (r.data.getD []).length) 0

/-- The serialized entry a successful append of `r` stores. -/
def req_entry (r : Req) : List Nat :=
  encode_entry_header (SET_TLV_TYPE r.major r.minor) (r.size % 65536) ++ req_payload r

/-- Concatenation of the serialized entries of a request list. -/
def entries_bytes : List Req → List Nat
  | [] => []
  | r :: rs => req_entry r ++ entries_bytes rs

/-! ## The verifier-side entry scanner (spec §8, round-trip property)

Decodes entries from the stored bytes, from `offset` up to `tlv_end`,
advancing by `SHARED_DATA_ENTRY_SIZE` of each decoded length. -/

/-- Fuel-indexed scanner over the stored bytes. -/
def scan_entries_loop (bytes : List Nat) : Nat → Nat → Nat → List (Nat × Nat × List Nat)
  | 0, _, _ => []
  | Nat.succ fuel, offset, tlv_end =>
      if offset < tlv_end then
        let ty := decodeU16 bytes offset
        let len := decodeU16 bytes (offset + 2)
        (GET_MAJOR ty, GET_MINOR ty,
            (bytes.drop (offset + SHARED_DATA_ENTRY_HEADER_SIZE)).take len) ::
          scan_entries_loop bytes fuel (offset + SHARED_DATA_ENTRY_SIZE len) tlv_end
      else []

/-- Scan the stored bytes from `offset` up to `tlv_end`. -/
def scan_entries (bytes : List Nat) (offset tlv_end : Nat) : List (Nat × Nat × List Nat) :=
  scan_entries_loop bytes (tlv_end - offset) offset tlv_end

/-! ## List and byte-level helper lemmas -/

lemma getD_eq_getElem? (l : List Nat) (i : Nat) : l.getD i 0 = (l[i]?).getD 0 := by
  simp [List.getD]

lemma getD_drop (l : List Nat) (n j : Nat) : (l.drop n).getD j 0 = l.getD (n + j) 0 := by
  simp [getD_eq_getElem?, List.getElem?_drop]

lemma getD_drop_take (l : List Nat) (o len j : Nat) (h : j < len) :
    ((l.drop o).take len).getD j 0 = l.getD (o + j) 0 := by
  simp [getD_eq_getElem?, List.getElem?_take, h, List.getElem?_drop]

lemma getD_append_left (l₁ l₂ : List Nat) (i : Nat) (h : i < l₁.length) :
    (l₁ ++ l₂).getD i 0 = l₁.getD i 0 := by
  simp [getD_eq_getElem?, List.getElem?_append, h]

lemma getD_append_right (l₁ l₂ : List Nat) (i : Nat) (h : l₁.length ≤ i) :
    (l₁ ++ l₂).getD i 0 = l₂.getD (i - l₁.length) 0 := by
  simp [getD_eq_getElem?, List.getElem?_append_right, h]

lemma getD_replicate (n a i : Nat) : (List.replicate n a).getD i 0 = if i < n then a else 0 := by
  by_cases h : i < n
  · simp [getD_eq_getElem?, List.getElem?_replicate, h]
  · simp only [getD_eq_getElem?]
    rw [List.getElem?_eq_none (by simpa [Nat.not_lt] using h)]
    simp [h]

lemma writeBytes_length (b src : List Nat) (o : Nat) (h : o + src.length ≤ b.length) :
    (writeBytes b o src).length = b.length := by
  simp [writeBytes, List.length_take, List.length_drop]
  omega

lemma getD_writeBytes (b src : List Nat) (o i : Nat) (h : o + src.length ≤ b.length) :
    (writeBytes b o src).getD i 0 =
      if o ≤ i ∧ i < o + src.length then src.getD (i - o) 0 else b.getD i 0 := by
  have hto : (b.take o).length = o := by
    simp [List.length_take]; omega
  by_cases h1 : i < o
  · rw [writeBytes, List.append_assoc, getD_append_left _ _ _ (by omega)]
    rw [if_neg (by omega)]
    simp [getD_eq_getElem?, List.getElem?_take, h1]
  · rw [writeBytes, List.append_assoc, getD_append_right _ _ _ (by omega), hto]
    by_cases h2 : i < o + src.length
    · rw [getD_append_left _ _ _ (by omega), if_pos ⟨by omega, h2⟩]
    · rw [getD_append_right _ _ _ (by omega), if_neg (by omega), getD_drop]
      congr 1
      omega

lemma u16_decomp (v : Nat) (h : v < 65536) : v % 256 + v / 256 % 256 * 256 = v := by
  omega

/-! ## Layout bookkeeping lemmas -/

lemma req_payload_length (r : Req) : (req_payload r).length = r.size := by
  simp [req_payload, List.length_take, List.length_replicate]
  omega

lemma req_entry_length (r : Req) : (req_entry r).length = SHARED_DATA_ENTRY_SIZE r.size := by
  simp [req_entry, encode_entry_header, encodeU16, req_payload_length,
    SHARED_DATA_ENTRY_SIZE, SHARED_DATA_ENTRY_HEADER_SIZE]
  omega

lemma entries_bytes_append (l : List Req) (r : Req) :
    entries_bytes (l ++ [r]) = entries_bytes l ++ req_entry r := by
  induction l with
  | nil => simp [entries_bytes]
  | cons a as ih => simp [entries_bytes, ih]

lemma entries_bytes_length (l : List Req) :
    (entries_bytes l).length = (l.map (fun r => SHARED_DATA_ENTRY_SIZE r.size)).sum := by
  induction l with
  | nil => simp [entries_bytes]
  | cons a as ih => simp [entries_bytes, req_entry_length, ih]

/-! ## Fuel sufficiency of the duplicate-scan loop -/

lemma scan_loop_congr (dev : Retention) (M m : Nat) :
    ∀ fuel1 fuel2 offset tlv_end, tlv_end - offset ≤ fuel1 → tlv_end - offset ≤ fuel2 →
      scan_loop dev M m fuel1 offset tlv_end = scan_loop dev M m fuel2 offset tlv_end := by
  intro fuel1
  induction fuel1 with
  | zero =>
    intro fuel2 offset tlv_end h1 h2
    have hlt : ¬ offset < tlv_end := by omega
    cases fuel2 <;> simp [scan_loop, hlt]
  | succ f ih =>
    intro fuel2 offset tlv_end h1 h2
    by_cases hlt : offset < tlv_end
    · obtain ⟨f2, rfl⟩ : ∃ f2, fuel2 = f2 + 1 := by
        cases fuel2 with
        | zero => omega
        | succ k => exact ⟨k, rfl⟩
      simp only [scan_loop, hlt, if_pos]
      cases hr : retention_read dev offset SHARED_DATA_ENTRY_HEADER_SIZE with
      | error e => rfl
      | ok hb =>
        by_cases hm : GET_MAJOR (decodeU16 hb 0) = M ∧ GET_MINOR (decodeU16 hb 0) = m
        · simp [hm]
        · simp only [hm, if_neg, if_false]
          exact ih f2 _ tlv_end
            (by simp [SHARED_DATA_ENTRY_SIZE, SHARED_DATA_ENTRY_HEADER_SIZE]; omega)
            (by simp [SHARED_DATA_ENTRY_SIZE, SHARED_DATA_ENTRY_HEADER_SIZE]; omega)
    · cases fuel2 <;> simp [scan_loop, hlt]

lemma scan_loop_isSome (dev : Retention) (M m : Nat) :
    ∀ fuel offset tlv_end, tlv_end - offset ≤ fuel →
      (scan_loop dev M m fuel offset tlv_end).isSome = true := by
  intro fuel
  induction fuel with
  | zero =>
    intro offset tlv_end h
    have hlt : ¬ offset < tlv_end := by omega
    simp [scan_loop, hlt]
  | succ f ih =>
    intro offset tlv_end h
    by_cases hlt : offset < tlv_end
    · simp only [scan_loop, hlt, if_pos]
      cases hr : retention_read dev offset SHARED_DATA_ENTRY_HEADER_SIZE with
      | error e => rfl
      | ok hb =>
        by_cases hm : GET_MAJOR (decodeU16 hb 0) = M ∧ GET_MINOR (decodeU16 hb 0) = m
        · simp [hm]
        · simp only [hm, if_neg, if_false]
          exact ih _ tlv_end
            (by simp [SHARED_DATA_ENTRY_SIZE, SHARED_DATA_ENTRY_HEADER_SIZE]; omega)
    · simp [scan_loop, hlt]

/-- With any fuel of at least `tlv_end - offset`, the scan loop finishes
and computes `find_existing_entry`. -/
lemma scan_loop_eq_find (dev : Retention) (M m fuel offset tlv_end : Nat)
    (h : tlv_end - offset ≤ fuel) :
    scan_loop dev M m fuel offset tlv_end =
      some (find_existing_entry dev M m offset tlv_end) := by
  have hc := scan_loop_congr dev M m fuel (tlv_end - offset) offset tlv_end h le_rfl
  have hs := scan_loop_isSome dev M m (tlv_end - offset) offset tlv_end le_rfl
  rw [find_existing_entry, hc]
  cases hx : scan_loop dev M m (tlv_end - offset) offset tlv_end with
  | none => rw [hx] at hs; simp at hs
  | some v => simp

lemma find_existing_stop (dev : Retention) (M m offset tlv_end : Nat)
    (h : tlv_end ≤ offset) :
    find_existing_entry dev M m offset tlv_end = ScanOutcome.clean := by
  have h0 : tlv_end - offset = 0 := by omega
  have hlt : ¬ offset < tlv_end := by omega
  simp [find_existing_entry, h0, scan_loop, hlt]

lemma find_existing_step (dev : Retention) (M m offset tlv_end : Nat)
    (h : offset < tlv_end) :
    find_existing_entry dev M m offset tlv_end =
      match retention_read dev offset SHARED_DATA_ENTRY_HEADER_SIZE with
      | Except.error _ => ScanOutcome.readErr
      | Except.ok hb =>
          if GET_MAJOR (decodeU16 hb 0) = M ∧ GET_MINOR (decodeU16 hb 0) = m then
            ScanOutcome.foundDup
          else
            find_existing_entry dev M m
              (offset + SHARED_DATA_ENTRY_SIZE (decodeU16 hb 2)) tlv_end := by
  obtain ⟨k, hk⟩ : ∃ k, tlv_end - offset = k + 1 := ⟨tlv_end - offset - 1, by omega⟩
  have hmain : scan_loop dev M m (k + 1) offset tlv_end =
      some (find_existing_entry dev M m offset tlv_end) :=
    scan_loop_eq_find dev M m (k + 1) offset tlv_end (by omega)
  rw [scan_loop] at hmain
  simp only [h, if_pos] at hmain
  cases hr : retention_read dev offset SHARED_DATA_ENTRY_HEADER_SIZE with
  | error e =>
    rw [hr] at hmain
    simp at hmain
    simp [← hmain]
  | ok hb =>
    rw [hr] at hmain
    by_cases hm : GET_MAJOR (decodeU16 hb 0) = M ∧ GET_MINOR (decodeU16 hb 0) = m
    · simp only [hm, if_pos, if_true] at hmain ⊢
      simp at hmain
      simp [← hmain]
    · simp only [hm, if_neg, if_false] at hmain ⊢
      rw [scan_loop_eq_find dev M m k _ tlv_end
        (by simp [SHARED_DATA_ENTRY_SIZE, SHARED_DATA_ENTRY_HEADER_SIZE]; omega)] at hmain
      simp at hmain
      simp [hmain]

/-! ## Type-field packing lemmas -/

lemma SET_TLV_TYPE_lt (M m : Nat) : SET_TLV_TYPE M m < 65536 := by
  have h1 : M % 256 < 256 := Nat.mod_lt _ (by norm_num)
  have h2 : m % 256 < 256 := Nat.mod_lt _ (by norm_num)
  simp only [SET_TLV_TYPE]
  omega

lemma GET_MAJOR_SET (M m : Nat) : GET_MAJOR (SET_TLV_TYPE M m) = M % 256 := by
  have h1 : M % 256 < 256 := Nat.mod_lt _ (by norm_num)
  have h2 : m % 256 < 256 := Nat.mod_lt _ (by norm_num)
  simp only [GET_MAJOR, SET_TLV_TYPE]
  omega

lemma GET_MINOR_SET (M m : Nat) : GET_MINOR (SET_TLV_TYPE M m) = m % 256 := by
  have h1 : m % 256 < 256 := Nat.mod_lt _ (by norm_num)
  simp only [GET_MINOR, SET_TLV_TYPE]
  omega

/-- Whether a stored request's entry matches the (already truncated)
`(major_type, minor_type)` of a new append call. -/
def tag_matches (r : Req) (Mt mt : Nat) : Bool :=
  r.major % 256 == Mt && r.minor % 256 == mt

lemma list_ext_getD (l₁ l₂ : List Nat) (hlen : l₁.length = l₂.length)
    (h : ∀ i, i < l₁.length → l₁.getD i 0 = l₂.getD i 0) : l₁ = l₂ := by
  apply List.ext_getElem hlen
  intro i h1 h2
  have hh := h i h1
  rwa [getD_eq_getElem?, getD_eq_getElem?, List.getElem?_eq_getElem h1,
    List.getElem?_eq_getElem h2] at hh

/-! ## The duplicate scan over a well-formed stored layout -/

lemma find_existing_of_layout (dev : Retention) (Mt mt : Nat)
    (hrd : ∀ o n, dev.readRc o n = 0) (l : List Req) :
    ∀ offset : Nat,
      offset + (entries_bytes l).length ≤ dev.size →
      (∀ i, i < (entries_bytes l).length →
        dev.bytes.getD (offset + i) 0 = (entries_bytes l).getD i 0) →
      (∀ r ∈ l, r.size < 65536) →
      find_existing_entry dev Mt mt offset (offset + (entries_bytes l).length) =
        (if l.any (fun r => tag_matches r Mt mt) then ScanOutcome.foundDup
         else ScanOutcome.clean) := by
  induction l with
  | nil =>
    intro offset _ _ _
    simp only [entries_bytes, List.length_nil, Nat.add_zero, List.any_nil, Bool.false_eq_true,
      if_false]
    exact find_existing_stop dev Mt mt offset offset le_rfl
  | cons r rs ih =>
    intro offset hlen hbytes hwf
    have hre : (req_entry r).length = 4 + r.size := by
      rw [req_entry_length]
      simp [SHARED_DATA_ENTRY_SIZE, SHARED_DATA_ENTRY_HEADER_SIZE]
    have hlcons : (entries_bytes (r :: rs)).length =
        (4 + r.size) + (entries_bytes rs).length := by
      simp [entries_bytes, hre]
    have hofflt : offset < offset + (entries_bytes (r :: rs)).length := by omega
    have hsz : r.size < 65536 := hwf r (by simp)
    -- decode the four header bytes of the first entry
    have hb : ∀ j, j < 4 → dev.bytes.getD (offset + j) 0 = (req_entry r).getD j 0 := by
      intro j hj
      rw [hbytes j (by omega)]
      show (entries_bytes (r :: rs)).getD j 0 = _
      rw [show entries_bytes (r :: rs) = req_entry r ++ entries_bytes rs from rfl]
      exact getD_append_left _ _ _ (by omega)
    have hread : retention_read dev offset SHARED_DATA_ENTRY_HEADER_SIZE =
        Except.ok ((dev.bytes.drop offset).take SHARED_DATA_ENTRY_HEADER_SIZE) := by
      rw [retention_read, if_neg (by
        simp only [SHARED_DATA_ENTRY_HEADER_SIZE]
        omega), if_neg (by simp [hrd])]
    have hhb : ∀ j, j < 4 →
        ((dev.bytes.drop offset).take SHARED_DATA_ENTRY_HEADER_SIZE).getD j 0 =
          (req_entry r).getD j 0 := by
      intro j hj
      rw [show SHARED_DATA_ENTRY_HEADER_SIZE = 4 from rfl,
        getD_drop_take _ _ _ _ hj]
      exact hb j hj
    have hre0 : (req_entry r).getD 0 0 = SET_TLV_TYPE r.major r.minor % 256 := by
      simp [req_entry, encode_entry_header, encodeU16]
    have hre1 : (req_entry r).getD 1 0 = SET_TLV_TYPE r.major r.minor / 256 % 256 := by
      simp [req_entry, encode_entry_header, encodeU16]
    have hre2 : (req_entry r).getD 2 0 = r.size % 65536 % 256 := by
      simp [req_entry, encode_entry_header, encodeU16]
    have hre3 : (req_entry r).getD 3 0 = r.size % 65536 / 256 % 256 := by
      simp [req_entry, encode_entry_header, encodeU16]
    have hdec0 : decodeU16 ((dev.bytes.drop offset).take SHARED_DATA_ENTRY_HEADER_SIZE) 0 =
        SET_TLV_TYPE r.major r.minor := by
      rw [decodeU16, hhb 0 (by norm_num), hhb 1 (by norm_num), hre0, hre1]
      have := SET_TLV_TYPE_lt r.major r.minor
      omega
    have hdec2 : decodeU16 ((dev.bytes.drop offset).take SHARED_DATA_ENTRY_HEADER_SIZE) 2 =
        r.size := by
      rw [decodeU16, hhb 2 (by norm_num), hhb 3 (by norm_num), hre2, hre3]
      omega
    rw [find_existing_step dev Mt mt offset _ hofflt, hread]
    simp only [hdec0, hdec2]
    by_cases hcond : GET_MAJOR (SET_TLV_TYPE r.major r.minor) = Mt ∧
        GET_MINOR (SET_TLV_TYPE r.major r.minor) = mt
    · have hany : (r :: rs).any (fun r => tag_matches r Mt mt) = true := by
        rw [GET_MAJOR_SET, GET_MINOR_SET] at hcond
        simp [List.any_cons, tag_matches, hcond.1, hcond.2]
      simp [hcond, hany]
    · have htag : tag_matches r Mt mt = false := by
        rw [GET_MAJOR_SET, GET_MINOR_SET] at hcond
        simp only [tag_matches, Bool.and_eq_false_iff, beq_eq_false_iff_ne, ne_eq]
        by_cases h1 : r.major % 256 = Mt
        · right; intro h2; exact hcond ⟨h1, h2⟩
        · left; exact h1
      have hany : (r :: rs).any (fun r => tag_matches r Mt mt) =
          rs.any (fun r => tag_matches r Mt mt) := by
        simp [List.any_cons, htag]
      rw [if_neg hcond]
      have hSrw : offset + (entries_bytes (r :: rs)).length =
          (offset + SHARED_DATA_ENTRY_SIZE r.size) + (entries_bytes rs).length := by
        simp only [SHARED_DATA_ENTRY_SIZE, SHARED_DATA_ENTRY_HEADER_SIZE]
        omega
      rw [hSrw, ih (offset + SHARED_DATA_ENTRY_SIZE r.size)
        (by simp only [SHARED_DATA_ENTRY_SIZE, SHARED_DATA_ENTRY_HEADER_SIZE]; omega)
        (by
          intro i hi
          have hx := hbytes ((4 + r.size) + i) (by omega)
          rw [show offset + ((4 + r.size) + i) =
            (offset + SHARED_DATA_ENTRY_SIZE r.size) + i by
              simp only [SHARED_DATA_ENTRY_SIZE, SHARED_DATA_ENTRY_HEADER_SIZE]; omega] at hx
          rw [hx]
          show (entries_bytes (r :: rs)).getD ((4 + r.size) + i) 0 = _
          rw [show entries_bytes (r :: rs) = req_entry r ++ entries_bytes rs from rfl,
            getD_append_right _ _ _ (by omega)]
          congr 1
          omega)
        (fun x hx => hwf x (by simp [hx]))]
      rw [hany]

/-! ## The entry scanner over a well-formed stored layout -/

lemma scan_entries_loop_of_layout (bytes : List Nat) (l : List Req) :
    ∀ fuel offset,
      (entries_bytes l).length ≤ fuel →
      offset + (entries_bytes l).length ≤ bytes.length →
      (∀ i, i < (entries_bytes l).length →
        bytes.getD (offset + i) 0 = (entries_bytes l).getD i 0) →
      (∀ r ∈ l, r.size < 65536) →
      scan_entries_loop bytes fuel offset (offset + (entries_bytes l).length) =
        l.map (fun r => (r.major % 256, r.minor % 256, req_payload r)) := by
  induction l with
  | nil =>
    intro fuel offset _ _ _ _
    cases fuel <;> simp [entries_bytes, scan_entries_loop]
  | cons r rs ih =>
    intro fuel offset hfuel hlen hbytes hwf
    have hre : (req_entry r).length = 4 + r.size := by
      rw [req_entry_length]
      simp [SHARED_DATA_ENTRY_SIZE, SHARED_DATA_ENTRY_HEADER_SIZE]
    have hlcons : (entries_bytes (r :: rs)).length =
        (4 + r.size) + (entries_bytes rs).length := by
      simp [entries_bytes, hre]
    have hsz : r.size < 65536 := hwf r (by simp)
    obtain ⟨f, rfl⟩ : ∃ f, fuel = f + 1 := ⟨fuel - 1, by omega⟩
    have hofflt : offset < offset + (entries_bytes (r :: rs)).length := by omega
    have hb : ∀ j, j < 4 + r.size →
        bytes.getD (offset + j) 0 = (req_entry r).getD j 0 := by
      intro j hj
      rw [hbytes j (by omega)]
      show (entries_bytes (r :: rs)).getD j 0 = _
      rw [show entries_bytes (r :: rs) = req_entry r ++ entries_bytes rs from rfl]
      exact getD_append_left _ _ _ (by omega)
    have hre0 : (req_entry r).getD 0 0 = SET_TLV_TYPE r.major r.minor % 256 := by
      simp [req_entry, encode_entry_header, encodeU16]
    have hre1 : (req_entry r).getD 1 0 = SET_TLV_TYPE r.major r.minor / 256 % 256 := by
      simp [req_entry, encode_entry_header, encodeU16]
    have hre2 : (req_entry r).getD 2 0 = r.size % 65536 % 256 := by
      simp [req_entry, encode_entry_header, encodeU16]
    have hre3 : (req_entry r).getD 3 0 = r.size % 65536 / 256 % 256 := by
      simp [req_entry, encode_entry_header, encodeU16]
    have hdec0 : decodeU16 bytes offset = SET_TLV_TYPE r.major r.minor := by
      rw [decodeU16, show bytes.getD offset 0 = bytes.getD (offset + 0) 0 by rw [Nat.add_zero],
        hb 0 (by omega), hb 1 (by omega), hre0, hre1]
      have := SET_TLV_TYPE_lt r.major r.minor
      omega
    have hdec2 : decodeU16 bytes (offset + 2) = r.size := by
      rw [decodeU16, show offset + 2 + 1 = offset + 3 by omega, hb 2 (by omega),
        hb 3 (by omega), hre2, hre3]
      omega
    have hpay : (bytes.drop (offset + SHARED_DATA_ENTRY_HEADER_SIZE)).take r.size =
        req_payload r := by
      apply list_ext_getD
      · rw [List.length_take, List.length_drop, req_payload_length]
        simp only [SHARED_DATA_ENTRY_HEADER_SIZE]
        omega
      · intro j hj
        rw [List.length_take, List.length_drop] at hj
        have hjr : j < r.size := lt_of_lt_of_le hj (min_le_left _ _)
        rw [getD_drop_take _ _ _ _ hjr]
        rw [show SHARED_DATA_ENTRY_HEADER_SIZE = 4 from rfl,
          show offset + 4 + j = offset + (4 + j) by omega, hb (4 + j) (by omega)]
        rw [show req_entry r =
          encode_entry_header (SET_TLV_TYPE r.major r.minor) (r.size % 65536) ++
            req_payload r from rfl]
        rw [getD_append_right _ _ _ (by simp [encode_entry_header, encodeU16])]
        congr 1
        simp [encode_entry_header, encodeU16]
    rw [scan_entries_loop]
    simp only [hofflt, if_pos, hdec0, hdec2, hpay]
    rw [GET_MAJOR_SET, GET_MINOR_SET]
    have hSrw : offset + (entries_bytes (r :: rs)).length =
        (offset + SHARED_DATA_ENTRY_SIZE r.size) + (entries_bytes rs).length := by
      simp only [SHARED_DATA_ENTRY_SIZE, SHARED_DATA_ENTRY_HEADER_SIZE]
      omega
    rw [hSrw, ih f (offset + SHARED_DATA_ENTRY_SIZE r.size)
      (by omega)
      (by simp only [SHARED_DATA_ENTRY_SIZE, SHARED_DATA_ENTRY_HEADER_SIZE]; omega)
      (by
        intro i hi
        have hx := hbytes ((4 + r.size) + i) (by omega)
        rw [show offset + ((4 + r.size) + i) =
          (offset + SHARED_DATA_ENTRY_SIZE r.size) + i by
            simp only [SHARED_DATA_ENTRY_SIZE, SHARED_DATA_ENTRY_HEADER_SIZE]; omega] at hx
        rw [hx]
        show (entries_bytes (r :: rs)).getD ((4 + r.size) + i) 0 = _
        rw [show entries_bytes (r :: rs) = req_entry r ++ entries_bytes rs from rfl,
          getD_append_right _ _ _ (by omega)]
        congr 1
        omega)
      (fun x hx => hwf x (by simp [hx]))]
    simp [List.map_cons]

lemma scan_entries_of_layout (bytes : List Nat) (l : List Req) (offset : Nat)
    (hlen : offset + (entries_bytes l).length ≤ bytes.length)
    (hbytes : ∀ i, i < (entries_bytes l).length →
      bytes.getD (offset + i) 0 = (entries_bytes l).getD i 0)
    (hwf : ∀ r ∈ l, r.size < 65536) :
    scan_entries bytes offset (offset + (entries_bytes l).length) =
      l.map (fun r => (r.major % 256, r.minor % 256, req_payload r)) := by
  rw [scan_entries]
  exact scan_entries_loop_of_layout bytes l _ offset (by omega) hlen hbytes hwf

/-! ## Simple facts about the append operation -/

lemma encode_entry_header_length (ty len : Nat) : (encode_entry_header ty len).length = 4 := by
  simp [encode_entry_header, encodeU16]

lemma encode_area_header_length (totLen : Nat) : (encode_area_header totLen).length = 6 := by
  simp [encode_area_header, encodeU32, encodeU16]

lemma SET_TLV_TYPE_mod (M m : Nat) : SET_TLV_TYPE (M % 256) (m % 65536) = SET_TLV_TYPE M m := by
  simp only [SET_TLV_TYPE]
  omega

/-- A `NULL` payload pointer fails with the generic error before any other
step: the state is untouched and no event is emitted (shared_data.c:45-47). -/
lemma add_data_none (st : BootState) (M m sz : Nat) :
    boot_add_data_to_shared_area st M m sz none = (SharedRc.gen_error, st, []) := rfl

/-- The state the guarded lazy initialization (shared_data.c:52-56)
produces: cleared region, cached `max_size`, flag set. -/
def init_applied (st : BootState) : BootState :=
  { st with dev := retention_clear st.dev
            shared_data_max_size := retention_size (retention_clear st.dev)
            shared_memory_init_done := true }

lemma add_data_not_inited (st : BootState) (M m sz : Nat) (d : List Nat)
    (h : st.shared_memory_init_done = false) :
    boot_add_data_to_shared_area st M m sz (some d) =
      ((add_data_inited (init_applied st) (M % 256) (m % 65536) sz d).1,
       (add_data_inited (init_applied st) (M % 256) (m % 65536) sz d).2.1,
       [Ev.clear, Ev.size_query] ++
         (add_data_inited (init_applied st) (M % 256) (m % 65536) sz d).2.2) := by
  rw [boot_add_data_to_shared_area]
  simp [h, init_applied]

lemma add_data_inited_run (st : BootState) (M m sz : Nat) (d : List Nat)
    (h : st.shared_memory_init_done = true) :
    boot_add_data_to_shared_area st M m sz (some d) =
      add_data_inited st (M % 256) (m % 65536) sz d := by
  rw [boot_add_data_to_shared_area]
  simp [h]

/-- Bytes after the success path's three writes: entry header at
`s`, payload right after it, area header at 0. -/
lemma getD_three_writes (b tlv pb hdr : List Nat) (s i : Nat)
    (hs : 6 ≤ s) (htlv : tlv.length = 4) (hhdr : hdr.length = 6)
    (hcap : s + 4 + pb.length ≤ b.length) :
    (writeBytes (writeBytes (writeBytes b s tlv) (s + 4) pb) 0 hdr).getD i 0 =
      if i < 6 then hdr.getD i 0
      else if s ≤ i ∧ i < s + 4 then tlv.getD (i - s) 0
      else if s + 4 ≤ i ∧ i < s + 4 + pb.length then pb.getD (i - (s + 4)) 0
      else b.getD i 0 := by
  have hl1 : (writeBytes b s tlv).length = b.length :=
    writeBytes_length b tlv s (by omega)
  have hl2 : (writeBytes (writeBytes b s tlv) (s + 4) pb).length = b.length := by
    rw [writeBytes_length _ pb _ (by omega), hl1]
  rw [getD_writeBytes _ hdr 0 i (by omega)]
  by_cases h6 : i < 6
  · rw [if_pos (by omega), if_pos h6]
    simp
  · rw [if_neg (by omega), if_neg h6, getD_writeBytes _ pb _ i (by omega),
      getD_writeBytes b tlv s i (by omega), htlv]
    by_cases hmid : s ≤ i ∧ i < s + 4
    · rw [if_neg (show ¬(s + 4 ≤ i ∧ i < s + 4 + pb.length) by omega), if_pos hmid,
        if_pos hmid]
    · by_cases hpay : s + 4 ≤ i ∧ i < s + 4 + pb.length
      · rw [if_pos hpay, if_neg hmid, if_pos hpay]
      · rw [if_neg hpay, if_neg hmid, if_neg hmid, if_neg hpay]

/-! ## The boot-cycle invariant

`CycleInv dev0 st l` says: the area was initialized from the device `dev0`,
the committed region holds exactly the serialized entries of the
successful requests `l` in order, everything above the committed region
is still cleared, and on a non-empty history the area header at offset 0
is committed with the current total length. -/

structure CycleInv (dev0 : Retention) (st : BootState) (l : List Req) : Prop where
  init : st.shared_memory_init_done = true
  maxsz : st.shared_data_max_size = dev0.size
  dsize : st.dev.size = dev0.size
  drd : st.dev.readRc = dev0.readRc
  dwr : st.dev.writeRc = dev0.writeRc
  blen : st.dev.bytes.length = dev0.size
  sds : st.shared_data_size = SHARED_DATA_HEADER_SIZE + (entries_bytes l).length
  sds_le : st.shared_data_size ≤ 65535
  sds_cap : st.shared_data_size ≤ dev0.size
  wf_reqs : ∀ r ∈ l, r.size ≤ 65525
  layout : ∀ i, i < (entries_bytes l).length →
    st.dev.bytes.getD (SHARED_DATA_HEADER_SIZE + i) 0 = (entries_bytes l).getD i 0
  zeros : ∀ i, st.shared_data_size ≤ i → st.dev.bytes.getD i 0 = 0
  header : l ≠ [] → ∀ i, i < SHARED_DATA_HEADER_SIZE →
    st.dev.bytes.getD i 0 = (encode_area_header st.shared_data_size).getD i 0

/-- Lazy initialization establishes the invariant with an empty history. -/
lemma inv_init_applied (st : BootState) (dev0 : Retention)
    (hdev : st.dev = dev0) (hsds : st.shared_data_size = SHARED_DATA_HEADER_SIZE)
    (h8 : SHARED_MEMORY_MIN_SIZE < dev0.size) :
    CycleInv dev0 (init_applied st) [] := by
  subst hdev
  refine ⟨rfl, rfl, rfl, rfl, rfl, ?_, ?_, ?_, ?_, ?_, ?_, ?_, ?_⟩
  · simp [init_applied, retention_clear]
  · simp [init_applied, entries_bytes, hsds]
  · simp only [init_applied, SHARED_DATA_HEADER_SIZE] at *
    omega
  · simp only [init_applied, SHARED_DATA_HEADER_SIZE, SHARED_MEMORY_MIN_SIZE] at *
    omega
  · intro r hr
    simp [entries_bytes] at hr
  · intro i hi
    simp [entries_bytes] at hi
  · intro i _
    simp [init_applied, retention_clear, getD_replicate]
  · intro h
    exact absurd rfl h

/-! ## Outcome characterization of the post-init append -/

lemma add_data_inited_readErr (st : BootState) (Mt mt sz : Nat) (d : List Nat)
    (hscan : find_existing_entry st.dev Mt mt SHARED_DATA_HEADER_SIZE
      st.shared_data_size = ScanOutcome.readErr) :
    add_data_inited st Mt mt sz d = (SharedRc.read_error, st, []) := by
  simp only [add_data_inited, hscan]

lemma add_data_inited_dup (st : BootState) (Mt mt sz : Nat) (d : List Nat)
    (hscan : find_existing_entry st.dev Mt mt SHARED_DATA_HEADER_SIZE
      st.shared_data_size = ScanOutcome.foundDup) :
    add_data_inited st Mt mt sz d = (SharedRc.overwrite, st, []) := by
  simp only [add_data_inited, hscan]

lemma add_data_inited_wrap (st : BootState) (Mt mt sz : Nat) (d : List Nat)
    (hscan : find_existing_entry st.dev Mt mt SHARED_DATA_HEADER_SIZE
      st.shared_data_size = ScanOutcome.clean)
    (hle : ¬ st.shared_data_size + SHARED_DATA_ENTRY_SIZE sz ≤ 65535) :
    add_data_inited st Mt mt sz d = (SharedRc.gen_error, st, []) := by
  simp only [add_data_inited, hscan, boot_u16_safe_add, hle, if_false]

lemma add_data_inited_full (st : BootState) (Mt mt sz : Nat) (d : List Nat)
    (hscan : find_existing_entry st.dev Mt mt SHARED_DATA_HEADER_SIZE
      st.shared_data_size = ScanOutcome.clean)
    (hle : st.shared_data_size + SHARED_DATA_ENTRY_SIZE sz ≤ 65535)
    (hcap : st.shared_data_max_size < st.shared_data_size + SHARED_DATA_ENTRY_SIZE sz) :
    add_data_inited st Mt mt sz d = (SharedRc.overflow, st, []) := by
  simp only [add_data_inited, hscan, boot_u16_safe_add, hle, if_true, hcap]

lemma add_data_inited_success (st : BootState) (Mt mt sz : Nat) (d : List Nat)
    (dev1 dev2 dev3 : Retention)
    (hscan : find_existing_entry st.dev Mt mt SHARED_DATA_HEADER_SIZE
      st.shared_data_size = ScanOutcome.clean)
    (hle : st.shared_data_size + SHARED_DATA_ENTRY_SIZE sz ≤ 65535)
    (hcap : ¬ st.shared_data_max_size < st.shared_data_size + SHARED_DATA_ENTRY_SIZE sz)
    (hw1 : retention_write st.dev st.shared_data_size
      (encode_entry_header (SET_TLV_TYPE Mt mt) (sz % 65536)) = Except.ok dev1)
    (hw2 : retention_write dev1 (st.shared_data_size + SHARED_DATA_ENTRY_HEADER_SIZE)
      (d.take sz) = Except.ok dev2)
    (hw3 : retention_write dev2 0
      (encode_area_header ((st.shared_data_size + SHARED_DATA_ENTRY_SIZE sz) % 65536)) =
      Except.ok dev3) :
    add_data_inited st Mt mt sz d =
      (SharedRc.ok,
        { st with
            dev := dev3
            shared_data_size := (st.shared_data_size + SHARED_DATA_ENTRY_SIZE sz) % 65536 },
        [Ev.write st.shared_data_size 4,
         Ev.write (st.shared_data_size + SHARED_DATA_ENTRY_HEADER_SIZE) (d.take sz).length,
         Ev.write 0 6]) := by
  simp only [add_data_inited, hscan, boot_u16_safe_add, hle, if_true, hcap, if_false,
    hw1, hw2, hw3, encode_entry_header_length, encode_area_header_length]

/-! ## Invariant preservation -/

lemma scan_under_inv (dev0 : Retention) (st : BootState) (l : List Req) (Mt mt : Nat)
    (hInv : CycleInv dev0 st l) (hrd : ∀ o n, dev0.readRc o n = 0) :
    find_existing_entry st.dev Mt mt SHARED_DATA_HEADER_SIZE st.shared_data_size =
      (if l.any (fun r => tag_matches r Mt mt) then ScanOutcome.foundDup
       else ScanOutcome.clean) := by
  rw [hInv.sds]
  exact find_existing_of_layout st.dev Mt mt (by rw [hInv.drd]; exact hrd) l
    SHARED_DATA_HEADER_SIZE
    (by rw [hInv.dsize]
        have h1 := hInv.sds_cap
        rw [hInv.sds] at h1
        exact h1)
    hInv.layout
    (fun r hr => by have := hInv.wf_reqs r hr; omega)

lemma retention_write_reliable (dev : Retention) (offset : Nat) (src : List Nat)
    (hwr : ∀ o n, dev.writeRc o n = 0) (hcap : offset + src.length ≤ dev.size) :
    retention_write dev offset src =
      Except.ok { dev with bytes := writeBytes dev.bytes offset src } := by
  rw [retention_write, if_neg (by omega), if_neg (by simp [hwr])]


lemma add_data_preserves_inv (dev0 : Retention) (st : BootState) (l : List Req)
    (M m sz : Nat) (d : List Nat)
    (hInv : CycleInv dev0 st l)
    (hrd : ∀ o n, dev0.readRc o n = 0) (hwr : ∀ o n, dev0.writeRc o n = 0) :
    ((boot_add_data_to_shared_area st M m sz (some d)).1 = SharedRc.ok →
      CycleInv dev0 (boot_add_data_to_shared_area st M m sz (some d)).2.1
        (l ++ [{ major := M, minor := m, size := sz, data := some d }])) ∧
    ((boot_add_data_to_shared_area st M m sz (some d)).1 ≠ SharedRc.ok →
      (boot_add_data_to_shared_area st M m sz (some d)).2.1 = st) := by
  rw [add_data_inited_run st M m sz d hInv.init]
  have hscan := scan_under_inv dev0 st l (M % 256) (m % 65536) hInv hrd
  by_cases hany : l.any (fun r => tag_matches r (M % 256) (m % 65536)) = true
  · rw [if_pos hany] at hscan
    rw [add_data_inited_dup st _ _ sz d hscan]
    exact ⟨fun h => by simp at h, fun _ => rfl⟩
  · rw [if_neg hany] at hscan
    by_cases hle : st.shared_data_size + SHARED_DATA_ENTRY_SIZE sz ≤ 65535
    · by_cases hcap : st.shared_data_max_size <
          st.shared_data_size + SHARED_DATA_ENTRY_SIZE sz
      · rw [add_data_inited_full st _ _ sz d hscan hle hcap]
        exact ⟨fun h => by simp at h, fun _ => rfl⟩
      · -- success path
        have hes : SHARED_DATA_ENTRY_SIZE sz = 4 + sz := by
          simp [SHARED_DATA_ENTRY_SIZE, SHARED_DATA_ENTRY_HEADER_SIZE]
        have hsds6 : 6 ≤ st.shared_data_size := by
          have := hInv.sds
          simp only [SHARED_DATA_HEADER_SIZE] at this
          omega
        have hcap' : st.shared_data_size + SHARED_DATA_ENTRY_SIZE sz ≤ dev0.size := by
          rw [hInv.maxsz] at hcap
          omega
        have hwr' : ∀ o n, st.dev.writeRc o n = 0 := by rw [hInv.dwr]; exact hwr
        have hblen : st.dev.bytes.length = dev0.size := hInv.blen
        have htk : (d.take sz).length ≤ sz := by simp [List.length_take]
        have hns : (st.shared_data_size + SHARED_DATA_ENTRY_SIZE sz) % 65536 =
            st.shared_data_size + SHARED_DATA_ENTRY_SIZE sz :=
          Nat.mod_eq_of_lt (by omega)
        set s := st.shared_data_size with hsdef
        set tlvb := encode_entry_header (SET_TLV_TYPE (M % 256) (m % 65536)) (sz % 65536)
          with htlvb
        set pb := d.take sz with hpbdef
        set hdrb := encode_area_header ((s + SHARED_DATA_ENTRY_SIZE sz) % 65536) with hhdrb
        have htlvlen : tlvb.length = 4 := encode_entry_header_length _ _
        have hhdrlen : hdrb.length = 6 := encode_area_header_length _
        have hw1 : retention_write st.dev s tlvb =
            Except.ok { st.dev with bytes := writeBytes st.dev.bytes s tlvb } :=
          retention_write_reliable st.dev s tlvb hwr'
            (by rw [htlvlen, hInv.dsize]; omega)
        have hw2 : retention_write { st.dev with bytes := writeBytes st.dev.bytes s tlvb }
            (s + SHARED_DATA_ENTRY_HEADER_SIZE) pb =
            Except.ok { st.dev with
              bytes := writeBytes (writeBytes st.dev.bytes s tlvb)
                (s + SHARED_DATA_ENTRY_HEADER_SIZE) pb } :=
          retention_write_reliable _ _ pb (fun o n => hwr' o n)
            (by
              show s + SHARED_DATA_ENTRY_HEADER_SIZE + pb.length ≤ st.dev.size
              rw [hInv.dsize]
              simp only [SHARED_DATA_ENTRY_HEADER_SIZE]
              omega)
        have hw3 : retention_write { st.dev with
              bytes := writeBytes (writeBytes st.dev.bytes s tlvb)
                (s + SHARED_DATA_ENTRY_HEADER_SIZE) pb } 0 hdrb =
            Except.ok { st.dev with
              bytes := writeBytes (writeBytes (writeBytes st.dev.bytes s tlvb)
                (s + SHARED_DATA_ENTRY_HEADER_SIZE) pb) 0 hdrb } :=
          retention_write_reliable _ 0 hdrb (fun o n => hwr' o n)
            (by
              show 0 + hdrb.length ≤ st.dev.size
              rw [hhdrlen, hInv.dsize]
              omega)
        rw [add_data_inited_success st (M % 256) (m % 65536) sz d _ _ _ hscan hle hcap
          hw1 hw2 hw3]
        refine ⟨fun _ => ?_, fun h => absurd rfl h⟩
        have hreq : req_entry { major := M, minor := m, size := sz, data := some d } =
            tlvb ++ (pb ++ List.replicate (sz - d.length) 0) := by
          simp [htlvb, hpbdef, req_entry, req_payload, SET_TLV_TYPE_mod]
        have hentries : entries_bytes
            (l ++ [{ major := M, minor := m, size := sz, data := some d }]) =
            entries_bytes l ++ (tlvb ++ (pb ++ List.replicate (sz - d.length) 0)) := by
          rw [entries_bytes_append, hreq]
        have hlell : (entries_bytes l).length = s - 6 := by
          have := hInv.sds
          simp only [SHARED_DATA_HEADER_SIZE] at this
          omega
        have hb3 : ∀ i,
            (writeBytes (writeBytes (writeBytes st.dev.bytes s tlvb)
              (s + SHARED_DATA_ENTRY_HEADER_SIZE) pb) 0 hdrb).getD i 0 =
            if i < 6 then hdrb.getD i 0
            else if s ≤ i ∧ i < s + 4 then tlvb.getD (i - s) 0
            else if s + 4 ≤ i ∧ i < s + 4 + pb.length then pb.getD (i - (s + 4)) 0
            else st.dev.bytes.getD i 0 := by
          intro i
          have := getD_three_writes st.dev.bytes tlvb pb hdrb s i hsds6 htlvlen hhdrlen
            (by omega)
          simpa [SHARED_DATA_ENTRY_HEADER_SIZE] using this
        refine ⟨hInv.init, hInv.maxsz, ?_, hInv.drd, hInv.dwr, ?_, ?_, ?_, ?_,
          ?_, ?_, ?_, ?_⟩
        · exact hInv.dsize
        · -- length of the bytes is unchanged
          show (writeBytes (writeBytes (writeBytes st.dev.bytes s tlvb)
            (s + SHARED_DATA_ENTRY_HEADER_SIZE) pb) 0 hdrb).length = dev0.size
          have hl1 : (writeBytes st.dev.bytes s tlvb).length = st.dev.bytes.length :=
            writeBytes_length _ _ _ (by rw [htlvlen, hblen]; omega)
          have hl2 : (writeBytes (writeBytes st.dev.bytes s tlvb)
              (s + SHARED_DATA_ENTRY_HEADER_SIZE) pb).length = st.dev.bytes.length := by
            rw [writeBytes_length _ _ _ (by
              rw [hl1, hblen]
              simp only [SHARED_DATA_ENTRY_HEADER_SIZE]
              omega), hl1]
          rw [writeBytes_length _ _ _ (by rw [hl2, hhdrlen, hblen]; omega), hl2, hblen]
        · -- total size accounting
          show (s + SHARED_DATA_ENTRY_SIZE sz) % 65536 = SHARED_DATA_HEADER_SIZE + _
          rw [hns, hentries]
          simp only [List.length_append, SHARED_DATA_HEADER_SIZE, htlvlen,
            List.length_replicate]
          have hpl : pb.length = min sz d.length := by simp [hpbdef]
          omega
        · show (s + SHARED_DATA_ENTRY_SIZE sz) % 65536 ≤ 65535
          omega
        · show (s + SHARED_DATA_ENTRY_SIZE sz) % 65536 ≤ dev0.size
          omega
        · -- request sizes
          intro r hr
          rcases List.mem_append.mp hr with h | h
          · exact hInv.wf_reqs r h
          · simp only [List.mem_singleton] at h
            subst h
            show sz ≤ 65525
            omega
        · -- layout
          intro i hi
          show (writeBytes (writeBytes (writeBytes st.dev.bytes s tlvb)
            (s + SHARED_DATA_ENTRY_HEADER_SIZE) pb) 0 hdrb).getD (SHARED_DATA_HEADER_SIZE + i) 0 = _
          simp only [SHARED_DATA_HEADER_SIZE]
          rw [hb3 (6 + i), hentries]
          rw [hentries] at hi
          simp only [List.length_append, htlvlen, List.length_replicate] at hi
          have hpl : pb.length = min sz d.length := by simp [hpbdef]
          by_cases h1 : i < (entries_bytes l).length
          · rw [if_neg (by omega), if_neg (by omega), if_neg (by omega)]
            rw [getD_append_left _ _ _ h1]
            exact hInv.layout i h1
          · rw [getD_append_right _ _ _ (by omega)]
            by_cases h2 : i - (entries_bytes l).length < 4
            · rw [if_neg (by omega), if_pos (by omega)]
              rw [getD_append_left _ _ _ (by omega)]
              congr 1
              omega
            · rw [getD_append_right _ _ _ (by omega), htlvlen]
              by_cases h3 : i - (entries_bytes l).length - 4 < pb.length
              · rw [if_neg (by omega), if_neg (by omega), if_pos (by omega)]
                rw [getD_append_left _ _ _ h3]
                congr 1
                omega
              · rw [if_neg (by omega), if_neg (by omega), if_neg (by omega)]
                rw [getD_append_right _ _ _ (by omega)]
                rw [getD_replicate]
                rw [hInv.zeros (6 + i) (by omega)]
                simp
        · -- zeros above the committed region
          intro i hi
          have hi' : (s + SHARED_DATA_ENTRY_SIZE sz) % 65536 ≤ i := hi
          rw [hns] at hi'
          show (writeBytes (writeBytes (writeBytes st.dev.bytes s tlvb)
            (s + SHARED_DATA_ENTRY_HEADER_SIZE) pb) 0 hdrb).getD i 0 = 0
          rw [hb3 i]
          rw [if_neg (by omega), if_neg (by omega), if_neg (by omega)]
          exact hInv.zeros i (by omega)
        · -- committed header
          intro _ i hi
          show (writeBytes (writeBytes (writeBytes st.dev.bytes s tlvb)
            (s + SHARED_DATA_ENTRY_HEADER_SIZE) pb) 0 hdrb).getD i 0 =
            (encode_area_header ((s + SHARED_DATA_ENTRY_SIZE sz) % 65536)).getD i 0
          rw [hb3 i]
          rw [if_pos (by simpa [SHARED_DATA_HEADER_SIZE] using hi)]
    · rw [add_data_inited_wrap st _ _ sz d hscan hle]
      exact ⟨fun h => by simp at h, fun _ => rfl⟩

/-! ## Runs of append calls -/

lemma ok_reqs_nil (outs : List (SharedRc × List Ev)) : ok_reqs [] outs = [] := by
  simp [ok_reqs]

lemma ok_reqs_cons (r : Req) (reqs : List Req) (o : SharedRc × List Ev)
    (outs : List (SharedRc × List Ev)) :
    ok_reqs (r :: reqs) (o :: outs) =
      (if o.1 = SharedRc.ok then [r] else []) ++ ok_reqs reqs outs := by
  by_cases h : o.1 = SharedRc.ok <;>
    simp [ok_reqs, List.zip_cons_cons, List.filter_cons, h]

lemma run_appends_inv (dev0 : Retention)
    (hrd : ∀ o n, dev0.readRc o n = 0) (hwr : ∀ o n, dev0.writeRc o n = 0) :
    ∀ (reqs : List Req) (st : BootState) (l : List Req), CycleInv dev0 st l →
      CycleInv dev0 (run_appends st reqs).1
        (l ++ ok_reqs reqs (run_appends st reqs).2) := by
  intro reqs
  induction reqs with
  | nil =>
    intro st l h
    simpa [run_appends, ok_reqs_nil] using h
  | cons r rs ih =>
    intro st l h
    rcases r with ⟨rM, rm, rsz, rd⟩
    cases rd with
    | none =>
      have hout : boot_add_data_to_shared_area st rM rm rsz none =
          (SharedRc.gen_error, st, []) := add_data_none st rM rm rsz
      show CycleInv dev0 (run_appends _ (_ :: rs)).1 _
      simp only [run_appends, hout, ok_reqs_cons]
      simpa using ih st l h
    | some d =>
      have hpres := add_data_preserves_inv dev0 st l rM rm rsz d h hrd hwr
      by_cases hok : (boot_add_data_to_shared_area st rM rm rsz (some d)).1 = SharedRc.ok
      · have hInv' := hpres.1 hok
        have hrun := ih (boot_add_data_to_shared_area st rM rm rsz (some d)).2.1
          (l ++ [{ major := rM, minor := rm, size := rsz, data := some d }]) hInv'
        show CycleInv dev0 (run_appends _ (_ :: rs)).1 _
        simp only [run_appends, ok_reqs_cons, hok, if_pos]
        simpa [List.append_assoc] using hrun
      · have hst : (boot_add_data_to_shared_area st rM rm rsz (some d)).2.1 = st :=
          hpres.2 hok
        have hrun := ih st l h
        show CycleInv dev0 (run_appends _ (_ :: rs)).1 _
        simp only [run_appends, ok_reqs_cons, hok, if_neg, if_false, hst]
        simpa using hrun

lemma run_from_initial (dev0 : Retention) (h8 : SHARED_MEMORY_MIN_SIZE < dev0.size)
    (hrd : ∀ o n, dev0.readRc o n = 0) (hwr : ∀ o n, dev0.writeRc o n = 0) :
    ∀ reqs : List Req,
      ((run_appends (initialState dev0) reqs).1 = initialState dev0 ∧
        ok_reqs reqs (run_appends (initialState dev0) reqs).2 = []) ∨
      CycleInv dev0 (run_appends (initialState dev0) reqs).1
        (ok_reqs reqs (run_appends (initialState dev0) reqs).2) := by
  intro reqs
  induction reqs with
  | nil => exact Or.inl ⟨rfl, ok_reqs_nil _⟩
  | cons r rs ih =>
    rcases r with ⟨rM, rm, rsz, rd⟩
    cases rd with
    | none =>
      have hout : boot_add_data_to_shared_area (initialState dev0) rM rm rsz none =
          (SharedRc.gen_error, initialState dev0, []) := add_data_none _ rM rm rsz
      rcases ih with ⟨h1, h2⟩ | hInv
      · left
        constructor
        · show (run_appends _ (_ :: rs)).1 = initialState dev0
          simp only [run_appends, hout]
          exact h1
        · show ok_reqs (_ :: rs) (run_appends _ (_ :: rs)).2 = []
          simp only [run_appends, hout, ok_reqs_cons]
          simpa using h2
      · right
        show CycleInv dev0 (run_appends _ (_ :: rs)).1 _
        simp only [run_appends, hout, ok_reqs_cons]
        simpa using hInv
    | some d =>
      right
      have hInv0 : CycleInv dev0 (init_applied (initialState dev0)) [] :=
        inv_init_applied (initialState dev0) dev0 rfl rfl h8
      have hfact := add_data_not_inited (initialState dev0) rM rm rsz d rfl
      have hrw := add_data_inited_run (init_applied (initialState dev0)) rM rm rsz d
        (by rfl)
      have hpres := add_data_preserves_inv dev0 (init_applied (initialState dev0)) []
        rM rm rsz d hInv0 hrd hwr
      rw [hrw] at hpres
      by_cases hok : (add_data_inited (init_applied (initialState dev0)) (rM % 256)
          (rm % 65536) rsz d).1 = SharedRc.ok
      · have hInv' := hpres.1 hok
        have hrun := run_appends_inv dev0 hrd hwr rs
          (add_data_inited (init_applied (initialState dev0)) (rM % 256)
            (rm % 65536) rsz d).2.1
          [{ major := rM, minor := rm, size := rsz, data := some d }] hInv'
        show CycleInv dev0 (run_appends _ (_ :: rs)).1 _
        simp only [run_appends, hfact, ok_reqs_cons, hok, if_pos]
        simpa using hrun
      · have hst := hpres.2 hok
        have hrun := run_appends_inv dev0 hrd hwr rs (init_applied (initialState dev0))
          [] hInv0
        show CycleInv dev0 (run_appends _ (_ :: rs)).1 _
        simp only [run_appends, hfact, ok_reqs_cons, hok, if_neg, if_false, hst]
        simpa using hrun

/-! ## Write-failure characterizations and frame facts -/

lemma boot_u16_safe_add_some (a b c : Nat) (h : boot_u16_safe_add a b = some c) :
    c = a + b ∧ a + b ≤ 65535 := by
  rw [boot_u16_safe_add] at h
  by_cases hle : a + b ≤ 65535
  · simp only [hle, if_pos, Option.some.injEq] at h
    exact ⟨h.symm, hle⟩
  · simp [hle] at h

lemma retention_write_ok_fields (dev dev' : Retention) (offset : Nat) (src : List Nat)
    (h : retention_write dev offset src = Except.ok dev') :
    dev'.size = dev.size ∧ dev'.readRc = dev.readRc ∧ dev'.writeRc = dev.writeRc ∧
    dev'.bytes = writeBytes dev.bytes offset src := by
  rw [retention_write] at h
  by_cases h1 : dev.size < offset + src.length
  · simp [h1] at h
  · simp only [h1, if_false] at h
    by_cases h2 : dev.writeRc offset src.length ≠ 0
    · simp [h2] at h
    · simp only [h2, if_false, Except.ok.injEq] at h
      subst h
      exact ⟨rfl, rfl, rfl, rfl⟩

lemma add_data_inited_wfail1 (st : BootState) (Mt mt sz : Nat) (d : List Nat) (e : Int)
    (hscan : find_existing_entry st.dev Mt mt SHARED_DATA_HEADER_SIZE
      st.shared_data_size = ScanOutcome.clean)
    (hle : st.shared_data_size + SHARED_DATA_ENTRY_SIZE sz ≤ 65535)
    (hcap : ¬ st.shared_data_max_size < st.shared_data_size + SHARED_DATA_ENTRY_SIZE sz)
    (hw1 : retention_write st.dev st.shared_data_size
      (encode_entry_header (SET_TLV_TYPE Mt mt) (sz % 65536)) = Except.error e) :
    add_data_inited st Mt mt sz d =
      (SharedRc.write_error, st, [Ev.write st.shared_data_size 4]) := by
  simp only [add_data_inited, hscan, boot_u16_safe_add, hle, if_true, hcap, if_false,
    hw1, encode_entry_header_length]

lemma add_data_inited_wfail2 (st : BootState) (Mt mt sz : Nat) (d : List Nat)
    (dev1 : Retention) (e : Int)
    (hscan : find_existing_entry st.dev Mt mt SHARED_DATA_HEADER_SIZE
      st.shared_data_size = ScanOutcome.clean)
    (hle : st.shared_data_size + SHARED_DATA_ENTRY_SIZE sz ≤ 65535)
    (hcap : ¬ st.shared_data_max_size < st.shared_data_size + SHARED_DATA_ENTRY_SIZE sz)
    (hw1 : retention_write st.dev st.shared_data_size
      (encode_entry_header (SET_TLV_TYPE Mt mt) (sz % 65536)) = Except.ok dev1)
    (hw2 : retention_write dev1 (st.shared_data_size + SHARED_DATA_ENTRY_HEADER_SIZE)
      (d.take sz) = Except.error e) :
    add_data_inited st Mt mt sz d =
      (SharedRc.write_error, { st with dev := dev1 },
        [Ev.write st.shared_data_size 4,
         Ev.write (st.shared_data_size + SHARED_DATA_ENTRY_HEADER_SIZE)
           (d.take sz).length]) := by
  simp only [add_data_inited, hscan, boot_u16_safe_add, hle, if_true, hcap, if_false,
    hw1, hw2, encode_entry_header_length]

lemma add_data_inited_wfail3 (st : BootState) (Mt mt sz : Nat) (d : List Nat)
    (dev1 dev2 : Retention) (e : Int)
    (hscan : find_existing_entry st.dev Mt mt SHARED_DATA_HEADER_SIZE
      st.shared_data_size = ScanOutcome.clean)
    (hle : st.shared_data_size + SHARED_DATA_ENTRY_SIZE sz ≤ 65535)
    (hcap : ¬ st.shared_data_max_size < st.shared_data_size + SHARED_DATA_ENTRY_SIZE sz)
    (hw1 : retention_write st.dev st.shared_data_size
      (encode_entry_header (SET_TLV_TYPE Mt mt) (sz % 65536)) = Except.ok dev1)
    (hw2 : retention_write dev1 (st.shared_data_size + SHARED_DATA_ENTRY_HEADER_SIZE)
      (d.take sz) = Except.ok dev2)
    (hw3 : retention_write dev2 0
      (encode_area_header ((st.shared_data_size + SHARED_DATA_ENTRY_SIZE sz) % 65536)) =
      Except.error e) :
    add_data_inited st Mt mt sz d =
      (SharedRc.write_error,
        { st with
            dev := dev2
            shared_data_size := (st.shared_data_size + SHARED_DATA_ENTRY_SIZE sz) % 65536 },
        [Ev.write st.shared_data_size 4,
         Ev.write (st.shared_data_size + SHARED_DATA_ENTRY_HEADER_SIZE) (d.take sz).length,
         Ev.write 0 6]) := by
  simp only [add_data_inited, hscan, boot_u16_safe_add, hle, if_true, hcap, if_false,
    hw1, hw2, hw3, encode_entry_header_length, encode_area_header_length]

/-- Frame facts for the post-init append over every branch: the init flag,
cached max size and device size are untouched, `shared_data_size` does not
decrease (and grows only after the full size check), and every emitted
event is a write. -/
lemma add_data_inited_frame (st : BootState) (Mt mt sz : Nat) (d : List Nat) :
    (add_data_inited st Mt mt sz d).2.1.shared_memory_init_done =
      st.shared_memory_init_done ∧
    (add_data_inited st Mt mt sz d).2.1.shared_data_max_size =
      st.shared_data_max_size ∧
    (add_data_inited st Mt mt sz d).2.1.dev.size = st.dev.size ∧
    ((add_data_inited st Mt mt sz d).2.1.shared_data_size = st.shared_data_size ∨
      ((add_data_inited st Mt mt sz d).2.1.shared_data_size =
          st.shared_data_size + SHARED_DATA_ENTRY_SIZE sz ∧
        st.shared_data_size + SHARED_DATA_ENTRY_SIZE sz ≤ st.shared_data_max_size ∧
        st.shared_data_size + SHARED_DATA_ENTRY_SIZE sz ≤ 65535)) ∧
    (∀ e ∈ (add_data_inited st Mt mt sz d).2.2, ∃ o n, e = Ev.write o n) := by
  cases hscan : find_existing_entry st.dev Mt mt SHARED_DATA_HEADER_SIZE
      st.shared_data_size with
  | readErr =>
    rw [add_data_inited_readErr st Mt mt sz d hscan]
    exact ⟨rfl, rfl, rfl, Or.inl rfl, by intro e he; simp at he⟩
  | foundDup =>
    rw [add_data_inited_dup st Mt mt sz d hscan]
    exact ⟨rfl, rfl, rfl, Or.inl rfl, by intro e he; simp at he⟩
  | clean =>
    by_cases hle : st.shared_data_size + SHARED_DATA_ENTRY_SIZE sz ≤ 65535
    · by_cases hcap : st.shared_data_max_size <
          st.shared_data_size + SHARED_DATA_ENTRY_SIZE sz
      · rw [add_data_inited_full st Mt mt sz d hscan hle hcap]
        exact ⟨rfl, rfl, rfl, Or.inl rfl, by intro e he; simp at he⟩
      · cases hw1 : retention_write st.dev st.shared_data_size
            (encode_entry_header (SET_TLV_TYPE Mt mt) (sz % 65536)) with
        | error e1 =>
          rw [add_data_inited_wfail1 st Mt mt sz d e1 hscan hle hcap hw1]
          refine ⟨rfl, rfl, rfl, Or.inl rfl, ?_⟩
          intro e he
          simp at he
          exact ⟨_, _, he⟩
        | ok dev1 =>
          have hf1 := retention_write_ok_fields st.dev dev1 _ _ hw1
          cases hw2 : retention_write dev1
              (st.shared_data_size + SHARED_DATA_ENTRY_HEADER_SIZE) (d.take sz) with
          | error e2 =>
            rw [add_data_inited_wfail2 st Mt mt sz d dev1 e2 hscan hle hcap hw1 hw2]
            refine ⟨rfl, rfl, hf1.1, Or.inl rfl, ?_⟩
            intro e he
            simp at he
            rcases he with he | he
            · exact ⟨_, _, he⟩
            · exact ⟨_, _, he⟩
          | ok dev2 =>
            have hf2 := retention_write_ok_fields dev1 dev2 _ _ hw2
            cases hw3 : retention_write dev2 0
                (encode_area_header
                  ((st.shared_data_size + SHARED_DATA_ENTRY_SIZE sz) % 65536)) with
            | error e3 =>
              rw [add_data_inited_wfail3 st Mt mt sz d dev1 dev2 e3 hscan hle hcap
                hw1 hw2 hw3]
              refine ⟨rfl, rfl, by rw [hf2.1, hf1.1], Or.inr ⟨?_, by omega, hle⟩, ?_⟩
              · show (st.shared_data_size + SHARED_DATA_ENTRY_SIZE sz) % 65536 = _
                exact Nat.mod_eq_of_lt (by omega)
              · intro e he
                simp at he
                rcases he with he | he | he
                · exact ⟨_, _, he⟩
                · exact ⟨_, _, he⟩
                · exact ⟨_, _, he⟩
            | ok dev3 =>
              have hf3 := retention_write_ok_fields dev2 dev3 _ _ hw3
              rw [add_data_inited_success st Mt mt sz d dev1 dev2 dev3 hscan hle hcap
                hw1 hw2 hw3]
              refine ⟨rfl, rfl, by rw [hf3.1, hf2.1, hf1.1], Or.inr ⟨?_, by omega, hle⟩, ?_⟩
              · show (st.shared_data_size + SHARED_DATA_ENTRY_SIZE sz) % 65536 = _
                exact Nat.mod_eq_of_lt (by omega)
              · intro e he
                simp at he
                rcases he with he | he | he
                · exact ⟨_, _, he⟩
                · exact ⟨_, _, he⟩
                · exact ⟨_, _, he⟩
    · rw [add_data_inited_wrap st Mt mt sz d hscan hle]
      exact ⟨rfl, rfl, rfl, Or.inl rfl, by intro e he; simp at he⟩

/-- Frame facts for a full append call: the init flag becomes true exactly
when a non-null payload arrives, `shared_data_size` never decreases, and
`clear`/`size_query` happen exactly on an uninitialized call with a
non-null payload. -/
lemma add_data_frame (st : BootState) (M m sz : Nat) (dat : Option (List Nat)) :
    (boot_add_data_to_shared_area st M m sz dat).2.1.shared_memory_init_done =
      (st.shared_memory_init_done || dat.isSome) ∧
    st.shared_data_size ≤
      (boot_add_data_to_shared_area st M m sz dat).2.1.shared_data_size ∧
    ((boot_add_data_to_shared_area st M m sz dat).2.2.count Ev.clear =
      if st.shared_memory_init_done = false ∧ dat.isSome = true then 1 else 0) ∧
    ((boot_add_data_to_shared_area st M m sz dat).2.2.count Ev.size_query =
      if st.shared_memory_init_done = false ∧ dat.isSome = true then 1 else 0) ∧
    (Ev.clear ∈ (boot_add_data_to_shared_area st M m sz dat).2.2 ↔
      (st.shared_memory_init_done = false ∧ dat.isSome = true)) ∧
    (Ev.size_query ∈ (boot_add_data_to_shared_area st M m sz dat).2.2 ↔
      (st.shared_memory_init_done = false ∧ dat.isSome = true)) := by
  cases dat with
  | none =>
    rw [add_data_none st M m sz]
    simp
  | some d =>
    cases hinit : st.shared_memory_init_done with
    | true =>
      rw [add_data_inited_run st M m sz d hinit]
      have hf := add_data_inited_frame st (M % 256) (m % 65536) sz d
      have hnoclear : Ev.clear ∉ (add_data_inited st (M % 256) (m % 65536) sz d).2.2 := by
        intro hmem
        obtain ⟨o, n, he⟩ := hf.2.2.2.2 Ev.clear hmem
        simp at he
      have hnoquery : Ev.size_query ∉
          (add_data_inited st (M % 256) (m % 65536) sz d).2.2 := by
        intro hmem
        obtain ⟨o, n, he⟩ := hf.2.2.2.2 Ev.size_query hmem
        simp at he
      refine ⟨by rw [hf.1, hinit]; rfl, ?_, ?_, ?_, ?_, ?_⟩
      · rcases hf.2.2.2.1 with h | h
        · rw [h]
        · rw [h.1]; omega
      · rw [List.count_eq_zero.mpr hnoclear]; simp
      · rw [List.count_eq_zero.mpr hnoquery]; simp
      · simp [hnoclear]
      · simp [hnoquery]
    | false =>
      rw [add_data_not_inited st M m sz d hinit]
      have hf := add_data_inited_frame (init_applied st) (M % 256) (m % 65536) sz d
      have hnoclear : Ev.clear ∉
          (add_data_inited (init_applied st) (M % 256) (m % 65536) sz d).2.2 := by
        intro hmem
        obtain ⟨o, n, he⟩ := hf.2.2.2.2 Ev.clear hmem
        simp at he
      have hnoquery : Ev.size_query ∉
          (add_data_inited (init_applied st) (M % 256) (m % 65536) sz d).2.2 := by
        intro hmem
        obtain ⟨o, n, he⟩ := hf.2.2.2.2 Ev.size_query hmem
        simp at he
      have hini : (init_applied st).shared_memory_init_done = true := rfl
      have hsds : (init_applied st).shared_data_size = st.shared_data_size := rfl
      refine ⟨by rw [hf.1, hini]; rfl, ?_, ?_, ?_, ?_, ?_⟩
      · rcases hf.2.2.2.1 with h | h
        · rw [h, hsds]
        · rw [h.1, hsds]
          omega
      · simp [List.count_append, List.count_eq_zero.mpr hnoclear]
      · simp [List.count_append, List.count_eq_zero.mpr hnoquery]
      · simp
      · simp

/-! ## Run-level consequences of the frame facts -/

lemma run_all_null (pre : List Req) :
    ∀ st : BootState, (∀ p ∈ pre, p.data = none) → (run_appends st pre).1 = st := by
  induction pre with
  | nil => intro st _; rfl
  | cons p ps ih =>
    intro st hnull
    have hp : p.data = none := hnull p (by simp)
    show (run_appends _ (p :: ps)).1 = st
    simp only [run_appends]
    rw [show boot_add_data_to_shared_area st p.major p.minor p.size p.data =
      (SharedRc.gen_error, st, []) by rw [hp]; exact add_data_none st p.major p.minor p.size]
    exact ih st (fun q hq => hnull q (by simp [hq]))

lemma run_init_flag (reqs : List Req) :
    ∀ st : BootState, (run_appends st reqs).1.shared_memory_init_done =
      (st.shared_memory_init_done || reqs.any (fun r => r.data.isSome)) := by
  induction reqs with
  | nil => intro st; simp [run_appends]
  | cons r rs ih =>
    intro st
    show (run_appends _ (r :: rs)).1.shared_memory_init_done = _
    simp only [run_appends]
    rw [ih, (add_data_frame st r.major r.minor r.size r.data).1]
    simp [List.any_cons, Bool.or_assoc]

/-- Total counts of `clear` and `size_query` events over a run. -/
lemma run_event_counts (reqs : List Req) :
    ∀ st : BootState,
      (((run_appends st reqs).2.map (fun o => o.2.count Ev.clear)).sum =
        if st.shared_memory_init_done = false ∧
            reqs.any (fun r => r.data.isSome) = true then 1 else 0) ∧
      (((run_appends st reqs).2.map (fun o => o.2.count Ev.size_query)).sum =
        if st.shared_memory_init_done = false ∧
            reqs.any (fun r => r.data.isSome) = true then 1 else 0) := by
  induction reqs with
  | nil =>
    intro st
    simp [run_appends]
  | cons r rs ih =>
    intro st
    have hf := add_data_frame st r.major r.minor r.size r.data
    have hinit' := hf.1
    constructor
    · show ((run_appends _ (r :: rs)).2.map (fun o => o.2.count Ev.clear)).sum = _
      simp only [run_appends, List.map_cons, List.sum_cons]
      rw [hf.2.2.1, (ih _).1, hinit']
      cases hst : st.shared_memory_init_done <;> cases hd : r.data.isSome <;>
        simp [List.any_cons, hd]
    · show ((run_appends _ (r :: rs)).2.map (fun o => o.2.count Ev.size_query)).sum = _
      simp only [run_appends, List.map_cons, List.sum_cons]
      rw [hf.2.2.2.1, (ih _).2, hinit']
      cases hst : st.shared_memory_init_done <;> cases hd : r.data.isSome <;>
        simp [List.any_cons, hd]

/-! ## A weak invariant for the capacity bound (no device-reliability needed) -/

/-- Either the area is still untouched (pre-init), or the committed size
is within the cached capacity. -/
def max_size_ok (dev0 : Retention) (st : BootState) : Prop :=
  (st.shared_memory_init_done = false → st = initialState dev0) ∧
  (st.shared_memory_init_done = true →
    st.shared_data_size ≤ st.shared_data_max_size)

lemma add_data_winv (dev0 : Retention) (st : BootState) (M m sz : Nat)
    (dat : Option (List Nat)) (h8 : SHARED_MEMORY_MIN_SIZE < dev0.size)
    (h : max_size_ok dev0 st) :
    max_size_ok dev0 (boot_add_data_to_shared_area st M m sz dat).2.1 := by
  cases dat with
  | none =>
    rw [add_data_none st M m sz]
    exact h
  | some d =>
    cases hinit : st.shared_memory_init_done with
    | true =>
      rw [add_data_inited_run st M m sz d hinit]
      have hf := add_data_inited_frame st (M % 256) (m % 65536) sz d
      constructor
      · intro hcontra
        rw [hf.1, hinit] at hcontra
        simp at hcontra
      · intro _
        have hb := h.2 hinit
        rw [hf.2.1]
        rcases hf.2.2.2.1 with hh | hh
        · rw [hh]; exact hb
        · rw [hh.1]; exact hh.2.1
    | false =>
      have hst : st = initialState dev0 := h.1 hinit
      rw [add_data_not_inited st M m sz d hinit]
      have hf := add_data_inited_frame (init_applied st) (M % 256) (m % 65536) sz d
      have hini : (init_applied st).shared_memory_init_done = true := rfl
      constructor
      · intro hcontra
        rw [hf.1, hini] at hcontra
        simp at hcontra
      · intro _
        have hmax : (init_applied st).shared_data_max_size = dev0.size := by
          rw [hst]
          rfl
        have hsds : (init_applied st).shared_data_size = SHARED_DATA_HEADER_SIZE := by
          rw [hst]
          rfl
        rw [hf.2.1, hmax]
        rcases hf.2.2.2.1 with hh | hh
        · rw [hh, hsds]
          simp only [SHARED_DATA_HEADER_SIZE, SHARED_MEMORY_MIN_SIZE] at *
          omega
        · rw [hh.1]
          have := hh.2.1
          rw [hmax] at this
          exact this

lemma run_winv (dev0 : Retention) (h8 : SHARED_MEMORY_MIN_SIZE < dev0.size)
    (reqs : List Req) :
    ∀ st : BootState, max_size_ok dev0 st →
      max_size_ok dev0 (run_appends st reqs).1 := by
  induction reqs with
  | nil => intro st h; exact h
  | cons r rs ih =>
    intro st h
    show max_size_ok dev0 (run_appends _ (r :: rs)).1
    simp only [run_appends]
    exact ih _ (add_data_winv dev0 st r.major r.minor r.size r.data h8 h)

/-! ## Claim theorems -/

/-- A concrete reliable 32-byte device for instantiating the theorems. -/
def devW : Retention :=
  { size := 32
    bytes := List.replicate 32 0
    readRc := fun _ _ => 0
    writeRc := fun _ _ => 0 }

/-- C9: the duplicate-scan loop of append terminates for every stored
area contents and every `written_size`: with any fuel of at least
`tlv_end - offset` iterations the loop finishes (computing
`find_existing_entry`), because each iteration advances the offset by
`SHARED_DATA_ENTRY_SIZE` of the decoded length, which is at least the
entry-header size and hence strictly positive. -/
theorem c9_scan_termination (dev : Retention) (M m offset tlv_end fuel len : Nat)
    (hfuel : tlv_end - offset ≤ fuel) :
    scan_loop dev M m fuel offset tlv_end =
      some (find_existing_entry dev M m offset tlv_end) ∧
    SHARED_DATA_ENTRY_HEADER_SIZE ≤ SHARED_DATA_ENTRY_SIZE len ∧
    0 < SHARED_DATA_ENTRY_SIZE len := by
  refine ⟨scan_loop_eq_find dev M m fuel offset tlv_end hfuel, ?_, ?_⟩ <;>
    simp [SHARED_DATA_ENTRY_SIZE, SHARED_DATA_ENTRY_HEADER_SIZE]

theorem c9_scan_termination_witness :
    scan_loop devW 1 1 3 6 9 = some (find_existing_entry devW 1 1 6 9) ∧
    SHARED_DATA_ENTRY_HEADER_SIZE ≤ SHARED_DATA_ENTRY_SIZE 5 ∧
    0 < SHARED_DATA_ENTRY_SIZE 5 :=
  c9_scan_termination devW 1 1 6 9 3 5 (by decide)

/-- C10: an append call with a `NULL` payload pointer fails with the
generic (invalid-argument) error before the lazy-initialization step: the
state is returned unchanged and no event (no `clear`, no `size_query`, no
write) is emitted; consequently a run whose prefix is all-null leaves the
boot-cycle state untouched, and the first call with a non-null payload is
the one that performs `clear`. -/
theorem c10_null_before_init (st : BootState) (M m sz : Nat) (dev : Retention)
    (pre : List Req) (r : Req)
    (hpre : ∀ p ∈ pre, p.data = none) (hr : r.data.isSome = true) :
    boot_add_data_to_shared_area st M m sz none = (SharedRc.gen_error, st, []) ∧
    (run_appends (initialState dev) pre).1 = initialState dev ∧
    Ev.clear ∈ (boot_add_data_to_shared_area (initialState dev) r.major r.minor
      r.size r.data).2.2 := by
  refine ⟨add_data_none st M m sz, run_all_null pre (initialState dev) hpre, ?_⟩
  exact (add_data_frame (initialState dev) r.major r.minor r.size r.data).2.2.2.2.1.mpr
    ⟨rfl, hr⟩

theorem c10_null_before_init_witness :
    boot_add_data_to_shared_area (initialState devW) 1 1 1 none =
      (SharedRc.gen_error, initialState devW, []) ∧
    (run_appends (initialState devW)
      [{ major := 1, minor := 1, size := 1, data := none }]).1 = initialState devW ∧
    Ev.clear ∈ (boot_add_data_to_shared_area (initialState devW) 1 2 1
      (some [5])).2.2 :=
  c10_null_before_init (initialState devW) 1 1 1 devW
    [{ major := 1, minor := 1, size := 1, data := none }]
    { major := 1, minor := 2, size := 1, data := some [5] }
    (by decide) (by decide)

/-- C2: for an append call on an initialized area whose duplicate scan
comes back clean, the new size `written_size + entry-header-size +
payload-length` is computed with overflow-checked 16-bit arithmetic: if
the sum leaves the 16-bit range the call fails with the generic error
(`SHARED_MEMORY_GEN_ERROR`, the spec's SizeOverflow), if it fits but
exceeds `max_size` the call fails with `SHARED_MEMORY_OVERFLOW` (the
spec's AreaFull); in both cases the state is returned unchanged and no
event — in particular no write — is emitted. -/
theorem c2_size_checks (st : BootState) (M m sz : Nat) (d : List Nat)
    (hinit : st.shared_memory_init_done = true)
    (hscan : find_existing_entry st.dev (M % 256) (m % 65536) SHARED_DATA_HEADER_SIZE
      st.shared_data_size = ScanOutcome.clean) :
    (65535 < st.shared_data_size + SHARED_DATA_ENTRY_SIZE sz →
      boot_add_data_to_shared_area st M m sz (some d) = (SharedRc.gen_error, st, [])) ∧
    (st.shared_data_size + SHARED_DATA_ENTRY_SIZE sz ≤ 65535 →
      st.shared_data_max_size < st.shared_data_size + SHARED_DATA_ENTRY_SIZE sz →
      boot_add_data_to_shared_area st M m sz (some d) = (SharedRc.overflow, st, [])) := by
  constructor
  · intro hgt
    rw [add_data_inited_run st M m sz d hinit]
    exact add_data_inited_wrap st _ _ sz d hscan (by omega)
  · intro hle hcap
    rw [add_data_inited_run st M m sz d hinit]
    exact add_data_inited_full st _ _ sz d hscan hle hcap

theorem c2_size_checks_witness :
    boot_add_data_to_shared_area
        (boot_add_data_to_shared_area (initialState devW) 1 1 1 (some [2])).2.1
        2 0 65530 (some [1]) =
      (SharedRc.gen_error,
        (boot_add_data_to_shared_area (initialState devW) 1 1 1 (some [2])).2.1, []) ∧
    boot_add_data_to_shared_area
        (boot_add_data_to_shared_area (initialState devW) 1 1 1 (some [2])).2.1
        2 0 30 (some [1]) =
      (SharedRc.overflow,
        (boot_add_data_to_shared_area (initialState devW) 1 1 1 (some [2])).2.1, []) :=
  ⟨(c2_size_checks _ 2 0 65530 [1] (by decide) (by decide)).1 (by decide),
   (c2_size_checks _ 2 0 30 [1] (by decide) (by decide)).2 (by decide) (by decide)⟩

/-- C3 (counterexample): a boot cycle consisting of one append call whose
payload pointer is `NULL` invokes `clear()` zero times, not exactly once —
the null check precedes the lazy initialization. -/
theorem c3_counterexample :
    ((run_appends (initialState devW)
      [{ major := 1, minor := 1, size := 1, data := none }]).2.map
        (fun o => o.2.count Ev.clear)).sum = 0 ∧
    ¬ ((run_appends (initialState devW)
      [{ major := 1, minor := 1, size := 1, data := none }]).2.map
        (fun o => o.2.count Ev.clear)).sum = 1 := by
  constructor <;> decide

/-- C3 (amended): over any sequence of append calls in one boot cycle,
`clear()` is invoked exactly once if some call carries a non-null payload
and never otherwise, and likewise for the `max_size` query; the call that
performs them is exactly the first call with a non-null payload (a call
emits `clear`/`size_query` iff no earlier call had a non-null payload and
its own payload is non-null). -/
theorem c3_clear_once_amended (dev : Retention) (reqs pre rest : List Req) (r : Req)
    (hsplit : reqs = pre ++ r :: rest) :
    ((run_appends (initialState dev) reqs).2.map (fun o => o.2.count Ev.clear)).sum =
      (if reqs.any (fun q => q.data.isSome) = true then 1 else 0) ∧
    ((run_appends (initialState dev) reqs).2.map
        (fun o => o.2.count Ev.size_query)).sum =
      (if reqs.any (fun q => q.data.isSome) = true then 1 else 0) ∧
    (Ev.clear ∈ (boot_add_data_to_shared_area (run_appends (initialState dev) pre).1
        r.major r.minor r.size r.data).2.2 ↔
      (pre.any (fun q => q.data.isSome) = false ∧ r.data.isSome = true)) ∧
    (Ev.size_query ∈ (boot_add_data_to_shared_area
        (run_appends (initialState dev) pre).1 r.major r.minor r.size r.data).2.2 ↔
      (pre.any (fun q => q.data.isSome) = false ∧ r.data.isSome = true)) := by
  have hcounts := run_event_counts reqs (initialState dev)
  have hflag : (run_appends (initialState dev) pre).1.shared_memory_init_done =
      pre.any (fun q => q.data.isSome) := by
    rw [run_init_flag pre (initialState dev)]
    rfl
  have hframe := add_data_frame (run_appends (initialState dev) pre).1
    r.major r.minor r.size r.data
  refine ⟨?_, ?_, ?_, ?_⟩
  · rw [hcounts.1]
    simp [initialState]
  · rw [hcounts.2]
    simp [initialState]
  · rw [hframe.2.2.2.2.1, hflag]
  · rw [hframe.2.2.2.2.2, hflag]

theorem c3_clear_once_amended_witness :
    (((run_appends (initialState devW)
      [{ major := 1, minor := 1, size := 1, data := none },
       { major := 1, minor := 2, size := 1, data := some [7] }]).2.map
        (fun o => o.2.count Ev.clear)).sum =
      (if ([{ major := 1, minor := 1, size := 1, data := none },
            { major := 1, minor := 2, size := 1, data := some [7] }] : List Req).any
          (fun q => q.data.isSome) = true then 1 else 0)) ∧
    (((run_appends (initialState devW)
      [{ major := 1, minor := 1, size := 1, data := none },
       { major := 1, minor := 2, size := 1, data := some [7] }]).2.map
        (fun o => o.2.count Ev.size_query)).sum =
      (if ([{ major := 1, minor := 1, size := 1, data := none },
            { major := 1, minor := 2, size := 1, data := some [7] }] : List Req).any
          (fun q => q.data.isSome) = true then 1 else 0)) ∧
    (Ev.clear ∈ (boot_add_data_to_shared_area
        (run_appends (initialState devW)
          [{ major := 1, minor := 1, size := 1, data := none }]).1 1 2 1
        (some [7])).2.2 ↔
      (([{ major := 1, minor := 1, size := 1, data := none }] : List Req).any
          (fun q => q.data.isSome) = false ∧
        (some [7] : Option (List Nat)).isSome = true)) ∧
    (Ev.size_query ∈ (boot_add_data_to_shared_area
        (run_appends (initialState devW)
          [{ major := 1, minor := 1, size := 1, data := none }]).1 1 2 1
        (some [7])).2.2 ↔
      (([{ major := 1, minor := 1, size := 1, data := none }] : List Req).any
          (fun q => q.data.isSome) = false ∧
        (some [7] : Option (List Nat)).isSome = true)) :=
  c3_clear_once_amended devW
    [{ major := 1, minor := 1, size := 1, data := none },
     { major := 1, minor := 2, size := 1, data := some [7] }]
    [{ major := 1, minor := 1, size := 1, data := none }] []
    { major := 1, minor := 2, size := 1, data := some [7] } (by decide)

/-- C6 (counterexample): after an append call with a `NULL` payload in a
fresh boot cycle, `written_size` (the header size, 6) exceeds `max_size`
(still its static initializer 0, since lazy initialization has not run),
so `written_size` does not stay below `max_size` across every call. -/
theorem c6_counterexample :
    (boot_add_data_to_shared_area
      (initialState devW) 1 1 1 none).2.1.shared_data_max_size <
    (boot_add_data_to_shared_area
      (initialState devW) 1 1 1 none).2.1.shared_data_size := by
  decide

/-- C6 (amended): `shared_data_size` is monotonically non-decreasing
across every append call (successful or failed); and, provided the
region is larger than `SHARED_MEMORY_MIN_SIZE` (the `BUILD_ASSERT`),
once the area is initialized — that is, after the first call with a
non-null payload — `shared_data_size` never exceeds the cached
`max_size`. -/
theorem c6_monotone_bounded (dev : Retention) (reqs : List Req) (st : BootState)
    (M m sz : Nat) (dat : Option (List Nat))
    (h8 : SHARED_MEMORY_MIN_SIZE < dev.size) :
    st.shared_data_size ≤
      (boot_add_data_to_shared_area st M m sz dat).2.1.shared_data_size ∧
    ((run_appends (initialState dev) reqs).1.shared_memory_init_done = true →
      (run_appends (initialState dev) reqs).1.shared_data_size ≤
        (run_appends (initialState dev) reqs).1.shared_data_max_size) := by
  refine ⟨(add_data_frame st M m sz dat).2.1, ?_⟩
  intro hinit
  have h0 : max_size_ok dev (initialState dev) :=
    ⟨fun _ => rfl, fun h => by simp [initialState] at h⟩
  exact (run_winv dev h8 reqs (initialState dev) h0).2 hinit

theorem c6_monotone_bounded_witness :
    (initialState devW).shared_data_size ≤
      (boot_add_data_to_shared_area
        (initialState devW) 1 1 1 (some [2])).2.1.shared_data_size ∧
    ((run_appends (initialState devW)
        [{ major := 1, minor := 1, size := 1, data := some [2] }]).1.shared_memory_init_done
        = true →
      (run_appends (initialState devW)
          [{ major := 1, minor := 1, size := 1, data := some [2] }]).1.shared_data_size ≤
        (run_appends (initialState devW)
          [{ major := 1, minor := 1, size := 1,
             data := some [2] }]).1.shared_data_max_size) :=
  c6_monotone_bounded devW [{ major := 1, minor := 1, size := 1, data := some [2] }]
    (initialState devW) 1 1 1 (some [2]) (by decide)

/-- C8 (counterexample): a null-payload failure and a 16-bit-overflow
failure return the same error value — both return paths are
`return SHARED_MEMORY_GEN_ERROR` (shared_data.c:46 and shared_data.c:90) —
so the two causes are not distinguished as the claim requires. -/
theorem c8_counterexample :
    (boot_add_data_to_shared_area (initialState devW) 1 1 1 none).1 =
      SharedRc.gen_error ∧
    (boot_add_data_to_shared_area (initialState devW) 1 2 65532
      (some [0])).1 = SharedRc.gen_error := by
  constructor <;> decide

/-- C8 (amended): each failure cause returns the code the source uses:
the generic error (`SHARED_MEMORY_GEN_ERROR`) both for a null payload
reference and for 16-bit length-arithmetic wrap (one shared value, not
two distinct ones), `SHARED_MEMORY_READ_ERROR` for a backing-store read
failure during the duplicate scan, `SHARED_MEMORY_OVERWRITE` for a
repeated tag, `SHARED_MEMORY_OVERFLOW` for exceeding capacity, and
`SHARED_MEMORY_WRITE_ERROR` for a backing-store write failure at any of
the three write steps; these five codes (and the success code) are
pairwise distinct. -/
theorem c8_error_taxonomy_amended (st : BootState) (M m sz : Nat) (d : List Nat)
    (e : Int) (dev1 dev2 : Retention)
    (hinit : st.shared_memory_init_done = true) :
    (boot_add_data_to_shared_area st M m sz none).1 = SharedRc.gen_error ∧
    (find_existing_entry st.dev (M % 256) (m % 65536) SHARED_DATA_HEADER_SIZE
        st.shared_data_size = ScanOutcome.readErr →
      (boot_add_data_to_shared_area st M m sz (some d)).1 = SharedRc.read_error) ∧
    (find_existing_entry st.dev (M % 256) (m % 65536) SHARED_DATA_HEADER_SIZE
        st.shared_data_size = ScanOutcome.foundDup →
      (boot_add_data_to_shared_area st M m sz (some d)).1 = SharedRc.overwrite) ∧
    (find_existing_entry st.dev (M % 256) (m % 65536) SHARED_DATA_HEADER_SIZE
        st.shared_data_size = ScanOutcome.clean →
      65535 < st.shared_data_size + SHARED_DATA_ENTRY_SIZE sz →
      (boot_add_data_to_shared_area st M m sz (some d)).1 = SharedRc.gen_error) ∧
    (find_existing_entry st.dev (M % 256) (m % 65536) SHARED_DATA_HEADER_SIZE
        st.shared_data_size = ScanOutcome.clean →
      st.shared_data_size + SHARED_DATA_ENTRY_SIZE sz ≤ 65535 →
      st.shared_data_max_size < st.shared_data_size + SHARED_DATA_ENTRY_SIZE sz →
      (boot_add_data_to_shared_area st M m sz (some d)).1 = SharedRc.overflow) ∧
    (find_existing_entry st.dev (M % 256) (m % 65536) SHARED_DATA_HEADER_SIZE
        st.shared_data_size = ScanOutcome.clean →
      st.shared_data_size + SHARED_DATA_ENTRY_SIZE sz ≤ 65535 →
      ¬ st.shared_data_max_size < st.shared_data_size + SHARED_DATA_ENTRY_SIZE sz →
      retention_write st.dev st.shared_data_size
        (encode_entry_header (SET_TLV_TYPE (M % 256) (m % 65536)) (sz % 65536)) =
        Except.error e →
      (boot_add_data_to_shared_area st M m sz (some d)).1 = SharedRc.write_error) ∧
    (find_existing_entry st.dev (M % 256) (m % 65536) SHARED_DATA_HEADER_SIZE
        st.shared_data_size = ScanOutcome.clean →
      st.shared_data_size + SHARED_DATA_ENTRY_SIZE sz ≤ 65535 →
      ¬ st.shared_data_max_size < st.shared_data_size + SHARED_DATA_ENTRY_SIZE sz →
      retention_write st.dev st.shared_data_size
        (encode_entry_header (SET_TLV_TYPE (M % 256) (m % 65536)) (sz % 65536)) =
        Except.ok dev1 →
      retention_write dev1 (st.shared_data_size + SHARED_DATA_ENTRY_HEADER_SIZE)
        (d.take sz) = Except.error e →
      (boot_add_data_to_shared_area st M m sz (some d)).1 = SharedRc.write_error) ∧
    (find_existing_entry st.dev (M % 256) (m % 65536) SHARED_DATA_HEADER_SIZE
        st.shared_data_size = ScanOutcome.clean →
      st.shared_data_size + SHARED_DATA_ENTRY_SIZE sz ≤ 65535 →
      ¬ st.shared_data_max_size < st.shared_data_size + SHARED_DATA_ENTRY_SIZE sz →
      retention_write st.dev st.shared_data_size
        (encode_entry_header (SET_TLV_TYPE (M % 256) (m % 65536)) (sz % 65536)) =
        Except.ok dev1 →
      retention_write dev1 (st.shared_data_size + SHARED_DATA_ENTRY_HEADER_SIZE)
        (d.take sz) = Except.ok dev2 →
      retention_write dev2 0 (encode_area_header
        ((st.shared_data_size + SHARED_DATA_ENTRY_SIZE sz) % 65536)) = Except.error e →
      (boot_add_data_to_shared_area st M m sz (some d)).1 = SharedRc.write_error) ∧
    ([SharedRc.gen_error, SharedRc.overwrite, SharedRc.overflow, SharedRc.read_error,
      SharedRc.write_error, SharedRc.ok].Pairwise (· ≠ ·)) := by
  refine ⟨by rw [add_data_none st M m sz], ?_, ?_, ?_, ?_, ?_, ?_, ?_, by decide⟩
  · intro hscan
    rw [add_data_inited_run st M m sz d hinit, add_data_inited_readErr st _ _ sz d hscan]
  · intro hscan
    rw [add_data_inited_run st M m sz d hinit, add_data_inited_dup st _ _ sz d hscan]
  · intro hscan hgt
    rw [add_data_inited_run st M m sz d hinit,
      add_data_inited_wrap st _ _ sz d hscan (by omega)]
  · intro hscan hle hcap
    rw [add_data_inited_run st M m sz d hinit,
      add_data_inited_full st _ _ sz d hscan hle hcap]
  · intro hscan hle hcap hw1
    rw [add_data_inited_run st M m sz d hinit,
      add_data_inited_wfail1 st _ _ sz d e hscan hle hcap hw1]
  · intro hscan hle hcap hw1 hw2
    rw [add_data_inited_run st M m sz d hinit,
      add_data_inited_wfail2 st _ _ sz d dev1 e hscan hle hcap hw1 hw2]
  · intro hscan hle hcap hw1 hw2 hw3
    rw [add_data_inited_run st M m sz d hinit,
      add_data_inited_wfail3 st _ _ sz d dev1 dev2 e hscan hle hcap hw1 hw2 hw3]

theorem c8_error_taxonomy_amended_witness :
    ((boot_add_data_to_shared_area
        (boot_add_data_to_shared_area (initialState devW) 1 1 1 (some [2])).2.1
        1 1 65530 none).1 = SharedRc.gen_error) ∧
    ((boot_add_data_to_shared_area
        (boot_add_data_to_shared_area (initialState devW) 1 1 1 (some [2])).2.1
        1 1 65530 (some [9])).1 = SharedRc.overwrite) ∧
    ((boot_add_data_to_shared_area
        (boot_add_data_to_shared_area (initialState devW) 1 1 1 (some [2])).2.1
        1 2 65530 (some [9])).1 = SharedRc.gen_error) ∧
    SharedRc.gen_error ≠ SharedRc.overwrite :=
  ⟨(c8_error_taxonomy_amended
      (boot_add_data_to_shared_area (initialState devW) 1 1 1 (some [2])).2.1
      1 1 65530 [9] 0 devW devW (by decide)).1,
   (c8_error_taxonomy_amended
      (boot_add_data_to_shared_area (initialState devW) 1 1 1 (some [2])).2.1
      1 1 65530 [9] 0 devW devW (by decide)).2.2.1 (by decide),
   (c8_error_taxonomy_amended
      (boot_add_data_to_shared_area (initialState devW) 1 1 1 (some [2])).2.1
      1 2 65530 [9] 0 devW devW (by decide)).2.2.2.1 (by decide) (by decide),
   by decide⟩

/-- C1: in every boot-cycle state reached from a fresh cycle by a run of
append calls on a reliable device (reads and writes succeed), if an entry
with the pair `(major, minor)` was successfully appended, then an append
call with that same pair (8-bit domains, non-null payload) fails with
`SHARED_MEMORY_OVERWRITE` (DuplicateEntry), returns the state completely
unchanged — in particular `written_size` — and emits no event, so no
write reaches the backing store. -/
theorem c1_duplicate_rejected (dev : Retention) (reqs : List Req) (r0 : Req)
    (M m sz : Nat) (d : List Nat)
    (h8 : SHARED_MEMORY_MIN_SIZE < dev.size)
    (hrd : ∀ o n, dev.readRc o n = 0) (hwr : ∀ o n, dev.writeRc o n = 0)
    (hM : M < 256) (hm : m < 256)
    (hmem : r0 ∈ ok_reqs reqs (run_appends (initialState dev) reqs).2)
    (hMaj : r0.major % 256 = M) (hMin : r0.minor % 256 = m) :
    boot_add_data_to_shared_area (run_appends (initialState dev) reqs).1 M m sz
      (some d) =
      (SharedRc.overwrite, (run_appends (initialState dev) reqs).1, []) := by
  rcases run_from_initial dev h8 hrd hwr reqs with ⟨h1, h2⟩ | hInv
  · rw [h2] at hmem
    simp at hmem
  · have hany : (ok_reqs reqs (run_appends (initialState dev) reqs).2).any
        (fun r => tag_matches r (M % 256) (m % 65536)) = true := by
      apply List.any_eq_true.mpr
      refine ⟨r0, hmem, ?_⟩
      have hm' : m % 65536 = m := Nat.mod_eq_of_lt (by omega)
      simp [tag_matches, hMaj, hMin, Nat.mod_eq_of_lt hM, hm']
    have hscan := scan_under_inv dev (run_appends (initialState dev) reqs).1 _
      (M % 256) (m % 65536) hInv hrd
    rw [if_pos hany] at hscan
    rw [add_data_inited_run _ M m sz d hInv.init,
      add_data_inited_dup _ _ _ sz d hscan]

theorem c1_duplicate_rejected_witness :
    boot_add_data_to_shared_area
      (run_appends (initialState devW)
        [{ major := 1, minor := 1, size := 1, data := some [2] }]).1 1 1 2
      (some [9, 9]) =
      (SharedRc.overwrite,
        (run_appends (initialState devW)
          [{ major := 1, minor := 1, size := 1, data := some [2] }]).1, []) :=
  c1_duplicate_rejected devW [{ major := 1, minor := 1, size := 1, data := some [2] }]
    { major := 1, minor := 1, size := 1, data := some [2] } 1 1 2 [9, 9]
    (by decide) (fun _ _ => rfl) (fun _ _ => rfl) (by decide) (by decide)
    (by decide) (by decide) (by decide)

/-! ## Decoding the committed area header -/

lemma getD_six (b0 b1 b2 b3 b4 b5 : Nat) :
    [b0, b1, b2, b3, b4, b5].getD 0 0 = b0 ∧
    [b0, b1, b2, b3, b4, b5].getD 1 0 = b1 ∧
    [b0, b1, b2, b3, b4, b5].getD 2 0 = b2 ∧
    [b0, b1, b2, b3, b4, b5].getD 3 0 = b3 ∧
    [b0, b1, b2, b3, b4, b5].getD 4 0 = b4 ∧
    [b0, b1, b2, b3, b4, b5].getD 5 0 = b5 :=
  ⟨rfl, rfl, rfl, rfl, rfl, rfl⟩

lemma encode_area_header_eq (t : Nat) : encode_area_header t =
    [SHARED_DATA_TLV_INFO_MAGIC % 256, SHARED_DATA_TLV_INFO_MAGIC / 256 % 256,
     SHARED_DATA_TLV_INFO_MAGIC / 65536 % 256, SHARED_DATA_TLV_INFO_MAGIC / 16777216 % 256,
     t % 256, t / 256 % 256] := rfl

lemma header_decodes (dev0 : Retention) (st : BootState) (l : List Req)
    (hInv : CycleInv dev0 st l) (hne : l ≠ []) :
    decodeU32 st.dev.bytes 0 = SHARED_DATA_TLV_INFO_MAGIC ∧
    decodeU16 st.dev.bytes 4 = st.shared_data_size := by
  have hh := hInv.header hne
  have h0 := hh 0 (by simp [SHARED_DATA_HEADER_SIZE])
  have h1 := hh 1 (by simp [SHARED_DATA_HEADER_SIZE])
  have h2 := hh 2 (by simp [SHARED_DATA_HEADER_SIZE])
  have h3 := hh 3 (by simp [SHARED_DATA_HEADER_SIZE])
  have h4 := hh 4 (by simp [SHARED_DATA_HEADER_SIZE])
  have h5 := hh 5 (by simp [SHARED_DATA_HEADER_SIZE])
  rw [encode_area_header_eq] at h0 h1 h2 h3 h4 h5
  rw [(getD_six _ _ _ _ _ _).1] at h0
  rw [(getD_six _ _ _ _ _ _).2.1] at h1
  rw [(getD_six _ _ _ _ _ _).2.2.1] at h2
  rw [(getD_six _ _ _ _ _ _).2.2.2.1] at h3
  rw [(getD_six _ _ _ _ _ _).2.2.2.2.1] at h4
  rw [(getD_six _ _ _ _ _ _).2.2.2.2.2] at h5
  have hle := hInv.sds_le
  constructor
  · rw [decodeU32, show (0:Nat) + 1 = 1 from rfl, show (0:Nat) + 2 = 2 from rfl,
      show (0:Nat) + 3 = 3 from rfl]
    rw [h0, h1, h2, h3]
    simp only [SHARED_DATA_TLV_INFO_MAGIC]
  · rw [decodeU16, show (4:Nat) + 1 = 5 from rfl, h4, h5]
    omega

/-- C4: after every successful append in a boot cycle running on a
reliable device, the bytes at offset 0 decode to the magic sentinel and a
`total_length` equal to `shared_data_size`, which in turn equals the area
header size plus the sum of `SHARED_DATA_ENTRY_SIZE` of every
successfully appended entry's payload length. -/
theorem c4_header_consistency (dev : Retention) (reqs : List Req) (M m sz : Nat)
    (dat : Option (List Nat)) (st' : BootState) (evs : List Ev)
    (h8 : SHARED_MEMORY_MIN_SIZE < dev.size)
    (hrd : ∀ o n, dev.readRc o n = 0) (hwr : ∀ o n, dev.writeRc o n = 0)
    (happend : boot_add_data_to_shared_area (run_appends (initialState dev) reqs).1
      M m sz dat = (SharedRc.ok, st', evs)) :
    decodeU32 st'.dev.bytes 0 = SHARED_DATA_TLV_INFO_MAGIC ∧
    decodeU16 st'.dev.bytes 4 = st'.shared_data_size ∧
    st'.shared_data_size = SHARED_DATA_HEADER_SIZE +
      ((ok_reqs reqs (run_appends (initialState dev) reqs).2 ++
        ([{ major := M, minor := m, size := sz, data := dat }] : List Req)).map
        (fun r => SHARED_DATA_ENTRY_SIZE r.size)).sum := by
  cases dat with
  | none =>
    rw [add_data_none] at happend
    simp at happend
  | some d =>
    have hInv' : CycleInv dev st'
        ((ok_reqs reqs (run_appends (initialState dev) reqs).2) ++
          [{ major := M, minor := m, size := sz, data := some d }]) := by
      rcases run_from_initial dev h8 hrd hwr reqs with ⟨h1, h2⟩ | hInv
      · rw [h2]
        have hInv0 := inv_init_applied (initialState dev) dev rfl rfl h8
        have hpres := add_data_preserves_inv dev (init_applied (initialState dev)) []
          M m sz d hInv0 hrd hwr
        rw [h1] at happend
        rw [add_data_not_inited (initialState dev) M m sz d rfl] at happend
        rw [add_data_inited_run (init_applied (initialState dev)) M m sz d rfl] at hpres
        have hrc : (add_data_inited (init_applied (initialState dev)) (M % 256)
            (m % 65536) sz d).1 = SharedRc.ok := by
          have := congrArg Prod.fst happend
          simpa using this
        have hst : (add_data_inited (init_applied (initialState dev)) (M % 256)
            (m % 65536) sz d).2.1 = st' := by
          have := congrArg (fun p => p.2.1) happend
          simpa using this
        have := hpres.1 hrc
        rw [hst] at this
        simpa using this
      · have hpres := add_data_preserves_inv dev (run_appends (initialState dev) reqs).1
          (ok_reqs reqs (run_appends (initialState dev) reqs).2) M m sz d hInv hrd hwr
        have hrc : (boot_add_data_to_shared_area (run_appends (initialState dev) reqs).1
            M m sz (some d)).1 = SharedRc.ok := by rw [happend]
        have h2 := hpres.1 hrc
        rw [happend] at h2
        exact h2
    have hne : ((ok_reqs reqs (run_appends (initialState dev) reqs).2) ++
        [{ major := M, minor := m, size := sz, data := some d }]) ≠ [] := by
      simp
    refine ⟨(header_decodes dev st' _ hInv' hne).1,
      (header_decodes dev st' _ hInv' hne).2, ?_⟩
    rw [hInv'.sds, entries_bytes_length]

theorem c4_header_consistency_witness :
    decodeU32 (boot_add_data_to_shared_area
        (run_appends (initialState devW) []).1 1 1 1
        (some [2])).2.1.dev.bytes 0 = SHARED_DATA_TLV_INFO_MAGIC ∧
    decodeU16 (boot_add_data_to_shared_area
        (run_appends (initialState devW) []).1 1 1 1
        (some [2])).2.1.dev.bytes 4 =
      (boot_add_data_to_shared_area
        (run_appends (initialState devW) []).1 1 1 1
        (some [2])).2.1.shared_data_size ∧
    (boot_add_data_to_shared_area
        (run_appends (initialState devW) []).1 1 1 1
        (some [2])).2.1.shared_data_size = SHARED_DATA_HEADER_SIZE +
      ((ok_reqs [] (run_appends (initialState devW) []).2 ++
        ([{ major := 1, minor := 1, size := 1, data := some [2] }] : List Req)).map
        (fun r => SHARED_DATA_ENTRY_SIZE r.size)).sum :=
  c4_header_consistency devW [] 1 1 1 (some [2])
    (boot_add_data_to_shared_area (run_appends (initialState devW) []).1 1 1 1
      (some [2])).2.1
    (boot_add_data_to_shared_area (run_appends (initialState devW) []).1 1 1 1
      (some [2])).2.2
    (by decide) (fun _ _ => rfl) (fun _ _ => rfl) rfl

/-! ## Round-trip scanning (C5) -/

lemma ok_reqs_all_ok (reqs : List Req) :
    ∀ st : BootState, (∀ o ∈ (run_appends st reqs).2, o.1 = SharedRc.ok) →
      ok_reqs reqs (run_appends st reqs).2 = reqs := by
  induction reqs with
  | nil => intro st _; rfl
  | cons r rs ih =>
    intro st hok
    show ok_reqs (r :: rs) (run_appends _ (r :: rs)).2 = r :: rs
    simp only [run_appends]
    rw [ok_reqs_cons]
    have h1 : (boot_add_data_to_shared_area st r.major r.minor r.size r.data).1 =
        SharedRc.ok := by
      have := hok ((boot_add_data_to_shared_area st r.major r.minor r.size r.data).1,
        (boot_add_data_to_shared_area st r.major r.minor r.size r.data).2.2)
        (by simp [run_appends])
      simpa using this
    rw [if_pos h1]
    rw [ih (boot_add_data_to_shared_area st r.major r.minor r.size r.data).2.1
      (fun o ho => hok o (by simp only [run_appends, List.mem_cons]; exact Or.inr ho))]
    rfl

/-- C5: for every non-empty sequence of appends in one boot cycle on a
reliable device, all of which succeed, with 8-bit tags and payloads whose
buffer length equals the size argument, scanning the stored bytes from
the header-size offset up to the header's `total_length` — decoding an
entry header and skipping its payload at each step — yields exactly the
appended `(major, minor, payload)` tuples in append order. -/
theorem c5_roundtrip (dev : Retention) (reqs : List Req)
    (h8 : SHARED_MEMORY_MIN_SIZE < dev.size)
    (hrd : ∀ o n, dev.readRc o n = 0) (hwr : ∀ o n, dev.writeRc o n = 0)
    (hne : reqs ≠ [])
    (hwf : ∀ r ∈ reqs, r.major < 256 ∧ r.minor < 256 ∧
      (r.data.getD []).length = r.size ∧ r.data.isSome = true)
    (hok : ∀ o ∈ (run_appends (initialState dev) reqs).2, o.1 = SharedRc.ok) :
    scan_entries (run_appends (initialState dev) reqs).1.dev.bytes
      SHARED_DATA_HEADER_SIZE
      (decodeU16 (run_appends (initialState dev) reqs).1.dev.bytes 4) =
      reqs.map (fun r => (r.major, r.minor, r.data.getD [])) := by
  have hokr := ok_reqs_all_ok reqs (initialState dev) hok
  rcases run_from_initial dev h8 hrd hwr reqs with ⟨h1, h2⟩ | hInv
  · rw [hokr] at h2
    exact absurd h2 hne
  · rw [hokr] at hInv
    rw [(header_decodes dev _ reqs hInv hne).2]
    rw [hInv.sds]
    rw [scan_entries_of_layout (run_appends (initialState dev) reqs).1.dev.bytes reqs
      SHARED_DATA_HEADER_SIZE
      (by
        rw [hInv.blen]
        have := hInv.sds_cap
        rw [hInv.sds] at this
        exact this)
      hInv.layout
      (fun r hr => by have := hInv.wf_reqs r hr; omega)]
    apply List.map_congr_left
    intro r hr
    obtain ⟨hM, hm, hlen, hsome⟩ := hwf r hr
    obtain ⟨d, hd⟩ := Option.isSome_iff_exists.mp hsome
    rw [Nat.mod_eq_of_lt hM, Nat.mod_eq_of_lt hm]
    have hpay : req_payload r = r.data.getD [] := by
      rw [req_payload]
      rw [hd] at hlen ⊢
      simp only [Option.getD_some]
      rw [← hlen]
      simp
    rw [hpay]

theorem c5_roundtrip_witness :
    scan_entries (run_appends (initialState devW)
        [{ major := 1, minor := 1, size := 1, data := some [2] },
         { major := 1, minor := 3, size := 1, data := some [5] }]).1.dev.bytes
      SHARED_DATA_HEADER_SIZE
      (decodeU16 (run_appends (initialState devW)
        [{ major := 1, minor := 1, size := 1, data := some [2] },
         { major := 1, minor := 3, size := 1, data := some [5] }]).1.dev.bytes 4) =
      ([{ major := 1, minor := 1, size := 1, data := some [2] },
        { major := 1, minor := 3, size := 1, data := some [5] }] : List Req).map
        (fun r => (r.major, r.minor, r.data.getD [])) :=
  c5_roundtrip devW
    [{ major := 1, minor := 1, size := 1, data := some [2] },
     { major := 1, minor := 3, size := 1, data := some [5] }]
    (by decide) (fun _ _ => rfl) (fun _ _ => rfl) (by decide) (by decide) (by decide)

/-! ## The record writer (C7) -/

lemma run_until_error_ok_iff (reqs : List Req) :
    ∀ st : BootState, ((run_until_error st reqs).1 = SharedRc.ok ↔
      (run_appends st reqs).2.map Prod.fst =
        List.replicate reqs.length SharedRc.ok) := by
  induction reqs with
  | nil => intro st; simp [run_until_error, run_appends]
  | cons r rs ih =>
    intro st
    show (run_until_error st (r :: rs)).1 = _ ↔
      (run_appends st (r :: rs)).2.map Prod.fst = _
    simp only [run_until_error, run_appends, List.map_cons, List.length_cons,
      List.replicate_succ]
    by_cases h : (boot_add_data_to_shared_area st r.major r.minor r.size r.data).1 =
        SharedRc.ok
    · rw [if_pos h]
      simp only [h, List.cons.injEq, true_and]
      exact ih _
    · rw [if_neg h]
      simp [h]

/-- C7: the record writer equals fail-fast sequencing of `append` over
the six facts in source order (operating mode, signature type, recovery
mode, active slot, bootloader version, maximum application size): it
calls `append` once per fact, stops at the first failure and returns
that failure's code unchanged; and it returns `SHARED_MEMORY_OK` iff
all six appends succeed. -/
theorem c7_record_writer (st : BootState) (mode signature_type recovery slot
    iv_major iv_minor iv_revision iv_build lolz : Nat) :
    boot_save_shared_data st mode signature_type recovery slot iv_major iv_minor
      iv_revision iv_build lolz =
      run_until_error st (save_reqs mode signature_type recovery slot iv_major
        iv_minor iv_revision iv_build lolz) ∧
    ((boot_save_shared_data st mode signature_type recovery slot iv_major iv_minor
        iv_revision iv_build lolz).1 = SharedRc.ok ↔
      (run_appends st (save_reqs mode signature_type recovery slot iv_major
        iv_minor iv_revision iv_build lolz)).2.map Prod.fst =
        List.replicate 6 SharedRc.ok) := by
  have heq : boot_save_shared_data st mode signature_type recovery slot iv_major
      iv_minor iv_revision iv_build lolz =
      run_until_error st (save_reqs mode signature_type recovery slot iv_major
        iv_minor iv_revision iv_build lolz) := by
    simp only [boot_save_shared_data, save_reqs, run_until_error]
    repeat' split
    all_goals simp_all
  refine ⟨heq, ?_⟩
  rw [heq]
  have h := run_until_error_ok_iff (save_reqs mode signature_type recovery slot
    iv_major iv_minor iv_revision iv_build lolz) st
  rw [show (save_reqs mode signature_type recovery slot iv_major iv_minor
    iv_revision iv_build lolz).length = 6 from rfl] at h
  exact h
